import Mathlib

/-!
# Spaceship shooter: the game-loop state machine of `main.cpp`

A shallow embedding of `GameWidget` (its constructor, `keyPressEvent`, `gameLoop`
and `startGame`) and theorems about it.

Modelling conventions.

* The score is the one `int` that play can drive to the end of its range: it grows by 10
  with every hit and nothing caps it.  So `score += 10` is modelled on 32 bits: `addScore`
  reduces the sum to the two's-complement range with an explicit `% 2^32`.  Signed
  overflow is undefined behaviour in C++; the wrapped value is what the usual targets
  compute, and a well-formed state has its score between `INT_MIN` and `INT_MAX`.
* Every other C++ `int` (positions, indices) is a Lean `Int`: in every run the positions
  stay within the playfield, far from the ends of the `int` range.
* A `QVector` is a `List`; `operator[]` and `remove(i)` are partial (`Option`), so that an
  index out of range shows up as `none` instead of being silently repaired.
* `qrand()` is a source of integers the program does not control: `gameLoop` takes the
  value of its first call `d` and the value of its second call `r` as arguments; the
  second call only happens when `d % 20 == 0`, and `r` is ignored otherwise.
* C++ `%` truncates toward zero: `Int.tmod`.
* Painting, image loading and the shoot sound do not influence the game state and are
  left out.  The timer is kept as the flag `timerActive`.
-/

namespace Spaceships

/-! ## Data model -/

/-- The phase of the session: `enum GameState { Menu, Playing, GameOver }`. -/
inductive GameState where
  | Menu
  | Playing
  | GameOver
  deriving DecidableEq, Repr

/-- A bullet: `struct Bullet { int x, y; }`. -/
structure Bullet where
  x : Int
  y : Int
  deriving DecidableEq, Repr

/-- An enemy: `struct Enemy { int x, y; }`. -/
structure Enemy where
  x : Int
  y : Int
  deriving DecidableEq, Repr

/-- The value of `event->key()`.  The key enumeration belongs to the widget toolkit; the
source compares the key against four of its members only, so those four are
distinguished and every other key is `Key_Other`. -/
inductive Key where
  | Key_Space
  | Key_R
  | Key_Left
  | Key_Right
  | Key_Other
  deriving DecidableEq, Repr

def WIDTH : Int := 400
def HEIGHT : Int := 600
def SHIP_WIDTH : Int := 40
def SHIP_HEIGHT : Int := 20
def BULLET_WIDTH : Int := 5
def BULLET_HEIGHT : Int := 10
def ENEMY_WIDTH : Int := 30
def ENEMY_HEIGHT : Int := 20

/-- The member variables of `GameWidget` that carry game state. -/
structure GameWidget where
  state : GameState
  shipX : Int
  shipY : Int
  score : Int
  bullets : List Bullet
  enemies : List Enemy
  timerActive : Bool
  deriving DecidableEq, Repr

/-! ## Constructor, `startGame`, `keyPressEvent` -/

/-- The state the constructor `GameWidget::GameWidget` leaves behind. -/
def initial : GameWidget :=
  { state := GameState.Menu
    shipX := (WIDTH.tdiv 2) - (SHIP_WIDTH.tdiv 2)
    shipY := HEIGHT - SHIP_HEIGHT - 10
    score := 0
    bullets := []
    enemies := []
    timerActive := true }

/-- The method `GameWidget::startGame`. -/
def startGame (g : GameWidget) : GameWidget :=
  { g with
    state := GameState.Playing
    bullets := []
    enemies := []
    score := 0
    shipX := (WIDTH.tdiv 2) - (SHIP_WIDTH.tdiv 2)
    timerActive := true }

/-- The method `GameWidget::keyPressEvent`, as a function of the key pressed. -/
def keyPressEvent (g : GameWidget) (key : Key) : GameWidget :=
  if g.state = GameState.Menu ∧ key = Key.Key_Space then startGame g
  else if g.state = GameState.GameOver ∧ key = Key.Key_R then startGame g
  else if g.state ≠ GameState.Playing then g
  else if key = Key.Key_Left ∧ g.shipX > 0 then { g with shipX := g.shipX - 10 }
  else if key = Key.Key_Right ∧ g.shipX + SHIP_WIDTH < WIDTH then { g with shipX := g.shipX + 10 }
  else if key = Key.Key_Space then
    { g with bullets := g.bullets ++ [{ x := g.shipX + (SHIP_WIDTH.tdiv 2) - 2, y := g.shipY }] }
  else g

/-! ## `gameLoop`, stage by stage -/

/-- The loop `for (Bullet &b : bullets) b.y -= 10;`. -/
def moveBullets (bs : List Bullet) : List Bullet :=
  bs.map fun b => { b with y := b.y - 10 }

/-- The erase/remove_if idiom on the bullets: drops, in order, those with `b.y < 0`. -/
def eraseOffscreenBullets (bs : List Bullet) : List Bullet :=
  bs.filter fun b => !decide (b.y < 0)

/-- The spawn step: `if (qrand() % 20 == 0) { int x = qrand() % (WIDTH - ENEMY_WIDTH);
enemies.append({x, 0}); }` with `d` and `r` the two values drawn. -/
def spawnEnemy (es : List Enemy) (d r : Int) : List Enemy :=
  if d.tmod 20 = 0 then es ++ [{ x := r.tmod (WIDTH - ENEMY_WIDTH), y := 0 }] else es

/-- The loop `for (Enemy &e : enemies) e.y += 5;`. -/
def moveEnemies (es : List Enemy) : List Enemy :=
  es.map fun e => { e with y := e.y + 5 }

/-- The overlap test in the condition of the collision `if`. -/
def overlaps (b : Bullet) (e : Enemy) : Bool :=
  decide (b.x < e.x + ENEMY_WIDTH) && decide (b.x + BULLET_WIDTH > e.x) &&
  decide (b.y < e.y + ENEMY_HEIGHT) && decide (b.y + BULLET_HEIGHT > e.y)

/-- Checked `operator[]` with an `int` index: `none` when the index is out of range. -/
def vecAt {α : Type} (xs : List α) (i : Int) : Option α :=
  if 0 ≤ i then xs[i.toNat]? else none

/-- Checked `QVector::remove(i)` with an `int` index: `none` when out of range. -/
def vecRemove {α : Type} (xs : List α) (i : Int) : Option (List α) :=
  if 0 ≤ i ∧ i < (xs.length : Int) then some (xs.eraseIdx i.toNat) else none

/-- The inner loop `for (int j = 0; j < enemies.size(); ++j)` from index `j` on, for the
bullet index `i`.  It answers `some (some j)` when the overlap test succeeds at `j` (the
`break`), `some none` when the scan reaches the end of the enemies, and `none` when an
index is out of range or the fuel runs out. -/
def innerLoop (bullets : List Bullet) (enemies : List Enemy) (i : Int) :
    Nat → Int → Option (Option Int)
  | 0, _ => none
  | fuel + 1, j =>
    if j < (enemies.length : Int) then
      match vecAt bullets i, vecAt enemies j with
      | some b, some e =>
        if overlaps b e then some (some j)
        else innerLoop bullets enemies i fuel (j + 1)
      | _, _ => none
    else some none

/-- The least value of a 32-bit `int`. -/
def INT_MIN : Int := -2147483648

/-- The greatest value of a 32-bit `int`. -/
def INT_MAX : Int := 2147483647

/-- Reduction of an integer to the 32-bit two's-complement range. -/
def wrapInt (n : Int) : Int :=
  (n + 2147483648) % 4294967296 - 2147483648

/-- The statement `score += 10` on the 32-bit `int score`. -/
def addScore (score : Int) : Int :=
  wrapInt (score + 10)

/-- The outer loop `for (int i = 0; i < bullets.size(); ++i)` from index `i` on, over the
triple (bullets, enemies, score).  On a hit it removes `bullets[i]` and `enemies[j]`, does
`score += 10` and `--i`, after which the loop header does `++i`.  `none` when an index is
out of range or the fuel runs out. -/
def outerLoop : Nat → List Bullet → List Enemy → Int → Int →
    Option (List Bullet × List Enemy × Int)
  | 0, _, _, _, _ => none
  | fuel + 1, bullets, enemies, score, i =>
    if i < (bullets.length : Int) then
      match innerLoop bullets enemies i (enemies.length + 1) 0 with
      | none => none
      | some (some j) =>
        match vecRemove bullets i, vecRemove enemies j with
        | some bullets1, some enemies1 =>
          outerLoop fuel bullets1 enemies1 (addScore score) ((i - 1) + 1)
        | _, _ => none
      | some none => outerLoop fuel bullets enemies score (i + 1)
    else some (bullets, enemies, score)

/-- The collision-detection block of `gameLoop`: the outer loop from `i = 0`.  Every pass
of the outer loop either removes a bullet or moves `i` forward, so `bullets.size() + 1`
passes are enough fuel. -/
def collisionDetection (bullets : List Bullet) (enemies : List Enemy) (score : Int) :
    Option (List Bullet × List Enemy × Int) :=
  outerLoop (bullets.length + 1) bullets enemies score 0

/-- The loss-check loop `for (const Enemy &e : enemies) if (e.y + ENEMY_HEIGHT >= shipY)
{ ...; break; }`: whether its body fires. -/
def enemyReachedShip (shipY : Int) : List Enemy → Bool
  | [] => false
  | e :: es => if e.y + ENEMY_HEIGHT ≥ shipY then true else enemyReachedShip shipY es

/-- The erase/remove_if idiom on the enemies: drops, in order, those with `e.y > HEIGHT`. -/
def cleanUpEnemies (es : List Enemy) : List Enemy :=
  es.filter fun e => !decide (e.y > HEIGHT)

/-- The bullets entering the collision block of a tick. -/
def bulletsBeforeCollision (g : GameWidget) : List Bullet :=
  eraseOffscreenBullets (moveBullets g.bullets)

/-- The enemies entering the collision block of a tick with draws `d`, `r`. -/
def enemiesBeforeCollision (g : GameWidget) (d r : Int) : List Enemy :=
  moveEnemies (spawnEnemy g.enemies d r)

/-- The slot `GameWidget::gameLoop` with the values `d`, `r` of its `qrand()` calls.
`none` stands for an out-of-range index in the collision block. -/
def gameLoop (g : GameWidget) (d r : Int) : Option GameWidget :=
  if g.state ≠ GameState.Playing then some g
  else
    match collisionDetection (bulletsBeforeCollision g) (enemiesBeforeCollision g d r)
        g.score with
    | none => none
    | some (bullets, enemies, score) =>
      let over := enemyReachedShip g.shipY enemies
      some { g with
        state := if over then GameState.GameOver else g.state
        timerActive := if over then false else g.timerActive
        bullets := bullets
        enemies := cleanUpEnemies enemies
        score := score }

/-! ## The collision procedure as the specification words it -/

/-- The lowest index of an enemy of `es` that overlaps `b`, if there is one. -/
def firstOverlapping (b : Bullet) : List Enemy → Option Nat
  | [] => none
  | e :: es => if overlaps b e then some 0 else (firstOverlapping b es).map (· + 1)

/-- The reference collision procedure: take the bullets in storage order; for each one
find the lowest-index enemy of the current enemy list that overlaps it; if there is one,
remove the bullet and that enemy and add 10 to the score (the program's `score += 10`);
otherwise keep the bullet. -/
def referenceCollision : List Bullet → List Enemy → Int → List Bullet × List Enemy × Int
  | [], es, score => ([], es, score)
  | b :: bs, es, score =>
    match firstOverlapping b es with
    | some j => referenceCollision bs (es.eraseIdx j) (addScore score)
    | none =>
      let rest := referenceCollision bs es score
      (b :: rest.1, rest.2.1, rest.2.2)

/-! ## Runs: sequences of key presses and ticks -/

/-- An event delivered to the widget: a key press or a timer tick with its draws. -/
inductive Event where
  | key (k : Key)
  | tick (d r : Int)

/-- One event applied to a state. -/
def step (g : GameWidget) : Event → Option GameWidget
  | Event.key k => some (keyPressEvent g k)
  | Event.tick d r => gameLoop g d r

/-- A finite sequence of events applied from a state. -/
def run (g : GameWidget) : List Event → Option GameWidget
  | [] => some g
  | ev :: evs => (step g ev).bind fun g1 => run g1 evs

/-- A state is reachable when some finite sequence of events leads to it from the
constructor's state. -/
def Reachable (g : GameWidget) : Prop :=
  ∃ evs : List Event, run initial evs = some g

/-! ## Auxiliary definitions for the proofs -/

/-- The result of the collision block of a tick, through the reference procedure. -/
def collided (g : GameWidget) (d r : Int) : List Bullet × List Enemy × Int :=
  referenceCollision (bulletsBeforeCollision g) (enemiesBeforeCollision g d r) g.score

/-- The ship stands on the grid of step 10 inside the field. -/
def ShipOnGrid (g : GameWidget) : Prop :=
  0 ≤ g.shipX ∧ g.shipX ≤ 360 ∧ g.shipX % 10 = 0

/-- Whether an event is a press of the right key. -/
def isRightPress : Event → Bool
  | Event.key Key.Key_Right => true
  | _ => false

/-- Whether an event is a tick. -/
def isTick : Event → Bool
  | Event.tick _ _ => true
  | _ => false

/-- The number of presses of the right key in a sequence of events. -/
def rightPresses (evs : List Event) : Nat :=
  evs.countP isRightPress

/-- Whether a sequence of events is made of presses of the right key and of ticks only
and meets the state Playing at each of its events. -/
def playingRightRun (g : GameWidget) : List Event → Bool
  | [] => true
  | ev :: evs =>
    decide (g.state = GameState.Playing) && (isRightPress ev || isTick ev) &&
      match step g ev with
      | some g1 => playingRightRun g1 evs
      | none => false

/-- Whether the draws of an event are non-negative, as the values of `qrand()` are. -/
def nonnegDraws : Event → Bool
  | Event.key _ => true
  | Event.tick d r => decide (0 ≤ d) && decide (0 ≤ r)

/-- A state is reachable with non-negative draws when some finite sequence of events whose
ticks all have non-negative draws leads to it from the constructor's state. -/
def ReachableNonneg (g : GameWidget) : Prop :=
  ∃ evs : List Event, evs.all nonnegDraws = true ∧ run initial evs = some g

/-- The position of an enemy of a reachable state. -/
def InField (e : Enemy) : Prop :=
  0 ≤ e.x ∧ e.x ≤ 369 ∧ e.y % 5 = 0 ∧ 5 ≤ e.y ∧ e.y ≤ 550

/-- The invariant behind the enemy bounds: the ship is at `y = 570`, every enemy is in the
field, a Playing state has no enemy at the ship's height yet and a GameOver state has
one. -/
def EnemiesInField (g : GameWidget) : Prop :=
  g.shipY = 570 ∧
  (∀ e ∈ g.enemies, InField e) ∧
  (g.state = GameState.Playing → ∀ e ∈ g.enemies, e.y ≤ 545) ∧
  (g.state = GameState.GameOver → ∃ e ∈ g.enemies, e.y + ENEMY_HEIGHT ≥ g.shipY)

/-- The enemies of a list stand in strictly decreasing `y` along storage order. -/
def ByAge (es : List Enemy) : Prop :=
  es.Pairwise fun a b => a.y > b.y

/-- The invariant behind the age order: decreasing `y`, and no enemy above `y = 5`. -/
def EnemiesByAge (g : GameWidget) : Prop :=
  ByAge g.enemies ∧ ∀ e ∈ g.enemies, 5 ≤ e.y

/-- The state after the first `n` ticks when no key is pressed, `draws i` being the two
draws of tick `i`, counted from 0. -/
def ticks (g : GameWidget) (draws : Nat → Int × Int) : Nat → Option GameWidget
  | 0 => some g
  | n + 1 => (ticks g draws n).bind fun g1 => gameLoop g1 (draws n).1 (draws n).2

/-! ## Lemmas on the checked vector operations -/

theorem vecAt_length_append {α : Type} (pre : List α) (x : α) (suf : List α) :
    vecAt (pre ++ x :: suf) (pre.length : Int) = some x := by
  have h : (pre ++ x :: suf)[pre.length]? = some x := by
    rw [List.getElem?_append_right (Nat.le_refl _)]; simp
  simpa [vecAt] using h

theorem vecRemove_length_append {α : Type} (pre : List α) (x : α) (suf : List α) :
    vecRemove (pre ++ x :: suf) (pre.length : Int) = some (pre ++ suf) := by
  have h : (pre.length : Int) < (pre.length : Int) + ((suf.length : Int) + 1) := by omega
  simp [vecRemove, h, List.eraseIdx_append_of_length_le]

theorem vecRemove_of_lt {α : Type} (xs : List α) (j : Nat) (h : j < xs.length) :
    vecRemove xs (j : Int) = some (xs.eraseIdx j) := by
  simp [vecRemove, h]

/-! ## Lemmas on the reference procedure -/

theorem firstOverlapping_lt (b : Bullet) :
    ∀ (es : List Enemy) (j : Nat), firstOverlapping b es = some j → j < es.length := by
  intro es
  induction es with
  | nil => intro j h; simp [firstOverlapping] at h
  | cons e es ih =>
    intro j h
    unfold firstOverlapping at h
    split at h
    · simp at h; subst h; simp
    · cases hfo : firstOverlapping b es with
      | none => simp [hfo] at h
      | some k =>
        simp [hfo] at h
        subst h
        have := ih k hfo
        simp; omega

theorem firstOverlapping_none (b : Bullet) :
    ∀ es : List Enemy, firstOverlapping b es = none ↔ ∀ e ∈ es, overlaps b e = false := by
  intro es
  induction es with
  | nil => simp [firstOverlapping]
  | cons e es ih =>
    unfold firstOverlapping
    by_cases h : overlaps b e = true
    · simp [h]
    · simp [h, ih]

/-- The index `firstOverlapping` answers is an overlapping enemy, and no enemy at a lower
index overlaps. -/
theorem firstOverlapping_some_iff (b : Bullet) :
    ∀ (es : List Enemy) (j : Nat), firstOverlapping b es = some j ↔
      (∃ e, es[j]? = some e ∧ overlaps b e = true) ∧
      ∀ k, k < j → ∀ e, es[k]? = some e → overlaps b e = false := by
  intro es
  induction es with
  | nil => intro j; simp [firstOverlapping]
  | cons e0 es ih =>
    intro j
    unfold firstOverlapping
    by_cases ho : overlaps b e0 = true
    · rw [if_pos ho]
      cases j with
      | zero => simp [ho]
      | succ j1 =>
        constructor
        · intro h; simp at h
        · rintro ⟨_, h2⟩
          have := h2 0 (Nat.succ_pos j1) e0 (by simp)
          rw [ho] at this
          exact Bool.noConfusion this
    · rw [if_neg ho]
      have ho2 : overlaps b e0 = false := by simpa using ho
      cases j with
      | zero =>
        constructor
        · intro h
          cases hfo : firstOverlapping b es <;> simp [hfo] at h
        · rintro ⟨⟨e, h1, h2⟩, _⟩
          simp at h1
          subst h1
          exact absurd h2 ho
      | succ j1 =>
        have hmap : Option.map (fun x => x + 1) (firstOverlapping b es) = some (j1 + 1)
            ↔ firstOverlapping b es = some j1 := by
          cases firstOverlapping b es <;> simp
        rw [hmap, ih j1]
        constructor
        · rintro ⟨⟨e, h1, h2⟩, h3⟩
          refine ⟨⟨e, by simpa using h1, h2⟩, ?_⟩
          intro k hk e1 he1
          cases k with
          | zero =>
            simp at he1
            subst he1
            exact ho2
          | succ k1 => exact h3 k1 (by omega) e1 (by simpa using he1)
        · rintro ⟨⟨e, h1, h2⟩, h3⟩
          refine ⟨⟨e, by simpa using h1, h2⟩, ?_⟩
          intro k hk e1 he1
          exact h3 (k + 1) (by omega) e1 (by simpa using he1)

/-! ## The index loops compute the reference procedure -/

theorem innerLoop_eq (bullets : List Bullet) (enemies : List Enemy) (i : Int) (b : Bullet)
    (hb : vecAt bullets i = some b) :
    ∀ (suf pre : List Enemy) (fuel : Nat), enemies = pre ++ suf → suf.length < fuel →
      innerLoop bullets enemies i fuel (pre.length : Int)
        = some ((firstOverlapping b suf).map fun k => ((pre.length + k : Nat) : Int)) := by
  intro suf
  induction suf with
  | nil =>
    intro pre fuel he hf
    obtain ⟨f, rfl⟩ : ∃ f, fuel = f + 1 := ⟨fuel - 1, by omega⟩
    subst he
    simp [innerLoop, firstOverlapping]
  | cons e rest ih =>
    intro pre fuel he hf
    obtain ⟨f, rfl⟩ : ∃ f, fuel = f + 1 := ⟨fuel - 1, by omega⟩
    subst he
    have hlt : (pre.length : Int) < ((pre ++ e :: rest).length : Int) := by
      rw [List.length_append, List.length_cons]; push_cast; omega
    have hat : vecAt (pre ++ e :: rest) (pre.length : Int) = some e :=
      vecAt_length_append pre e rest
    unfold innerLoop
    rw [if_pos hlt, hb, hat]
    by_cases ho : overlaps b e = true
    · simp [ho, firstOverlapping]
    · have hrec := ih (pre ++ [e]) f (by simp) (by simp at hf ⊢; omega)
      simp only [List.length_append, List.length_singleton, Nat.cast_add, Nat.cast_one] at hrec
      simp only [ho, firstOverlapping]
      rw [hrec]
      cases firstOverlapping b rest with
      | none => simp
      | some k => simp; omega

theorem outerLoop_eq :
    ∀ (rest pre : List Bullet) (es : List Enemy) (sc : Int) (fuel : Nat),
      rest.length < fuel →
      outerLoop fuel (pre ++ rest) es sc (pre.length : Int)
        = some (pre ++ (referenceCollision rest es sc).1,
                (referenceCollision rest es sc).2.1, (referenceCollision rest es sc).2.2) := by
  intro rest
  induction rest with
  | nil =>
    intro pre es sc fuel hf
    obtain ⟨f, rfl⟩ : ∃ f, fuel = f + 1 := ⟨fuel - 1, by omega⟩
    simp [outerLoop, referenceCollision]
  | cons b rest ih =>
    intro pre es sc fuel hf
    obtain ⟨f, rfl⟩ : ∃ f, fuel = f + 1 := ⟨fuel - 1, by omega⟩
    have hlt : (pre.length : Int) < ((pre ++ b :: rest).length : Int) := by
      rw [List.length_append, List.length_cons]; push_cast; omega
    have hin := innerLoop_eq (pre ++ b :: rest) es (pre.length : Int) b
      (vecAt_length_append pre b rest) es [] (es.length + 1) (by simp) (by omega)
    simp only [List.length_nil, Nat.cast_zero, Nat.zero_add] at hin
    unfold outerLoop
    rw [if_pos hlt, hin]
    cases hfo : firstOverlapping b es with
    | none =>
      have hrec := ih (pre ++ [b]) es sc f (by simp at hf; omega)
      simp only [List.length_append, List.length_singleton, Nat.cast_add, Nat.cast_one,
        List.append_assoc, List.singleton_append] at hrec
      simp [referenceCollision, hfo, hrec]
    | some j =>
      have hj := firstOverlapping_lt b es j hfo
      have hrec := ih pre (es.eraseIdx j) (addScore sc) f (by simp at hf; omega)
      simp [referenceCollision, hfo, vecRemove_length_append, vecRemove_of_lt es j hj, hrec]

theorem collisionDetection_eq (bullets : List Bullet) (enemies : List Enemy) (score : Int) :
    collisionDetection bullets enemies score
      = some (referenceCollision bullets enemies score) := by
  have h := outerLoop_eq bullets [] enemies score (bullets.length + 1) (by omega)
  simpa [collisionDetection] using h

/-! ## What the reference procedure keeps -/

theorem referenceCollision_bullets_sublist :
    ∀ (bs : List Bullet) (es : List Enemy) (sc : Int),
      (referenceCollision bs es sc).1.Sublist bs := by
  intro bs
  induction bs with
  | nil => intro es sc; simp [referenceCollision]
  | cons b bs ih =>
    intro es sc
    unfold referenceCollision
    cases firstOverlapping b es with
    | none => exact (ih es sc).cons₂ b
    | some j => exact (ih (es.eraseIdx j) (addScore sc)).cons b

theorem referenceCollision_enemies_sublist :
    ∀ (bs : List Bullet) (es : List Enemy) (sc : Int),
      (referenceCollision bs es sc).2.1.Sublist es := by
  intro bs
  induction bs with
  | nil => intro es sc; simp [referenceCollision]
  | cons b bs ih =>
    intro es sc
    unfold referenceCollision
    cases firstOverlapping b es with
    | none => exact ih es sc
    | some j => exact (ih (es.eraseIdx j) (addScore sc)).trans (List.eraseIdx_sublist es j)

theorem wrapInt_range (n : Int) : INT_MIN ≤ wrapInt n ∧ wrapInt n ≤ INT_MAX := by
  unfold wrapInt INT_MIN INT_MAX
  omega

theorem wrapInt_of_range (n : Int) (h0 : INT_MIN ≤ n) (h1 : n ≤ INT_MAX) : wrapInt n = n := by
  unfold wrapInt
  unfold INT_MIN at h0
  unfold INT_MAX at h1
  omega

theorem wrapInt_add (a b : Int) : wrapInt (wrapInt a + b) = wrapInt (a + b) := by
  unfold wrapInt
  omega

/-- The reference procedure removes as many bullets as enemies, `k` of each, and leaves
the score `score + 10 * k` reduced to 32 bits. -/
theorem referenceCollision_count :
    ∀ (bs : List Bullet) (es : List Enemy) (sc : Int), ∃ k : Nat,
      (referenceCollision bs es sc).1.length + k = bs.length ∧
      (referenceCollision bs es sc).2.1.length + k = es.length ∧
      (INT_MIN ≤ sc → sc ≤ INT_MAX →
        (referenceCollision bs es sc).2.2 = wrapInt (sc + 10 * (k : Int))) := by
  intro bs
  induction bs with
  | nil =>
    intro es sc
    refine ⟨0, by simp [referenceCollision], by simp [referenceCollision], ?_⟩
    intro h0 h1
    simp [referenceCollision, wrapInt_of_range sc h0 h1]
  | cons b bs ih =>
    intro es sc
    unfold referenceCollision
    cases hfo : firstOverlapping b es with
    | none =>
      obtain ⟨k, h2, h3, h1⟩ := ih es sc
      exact ⟨k, by simp; omega, h3, h1⟩
    | some j =>
      have hj := firstOverlapping_lt b es j hfo
      obtain ⟨k, h2, h3, h1⟩ := ih (es.eraseIdx j) (addScore sc)
      rw [List.length_eraseIdx, if_pos hj] at h3
      refine ⟨k + 1, ?_, ?_, ?_⟩
      · simp only [List.length_cons]; omega
      · simp only []; omega
      · intro _ _
        have hr := wrapInt_range (sc + 10)
        simp only []
        rw [h1 hr.1 hr.2]
        unfold addScore
        rw [wrapInt_add]
        congr 1
        push_cast
        ring

theorem referenceCollision_no_overlap :
    ∀ (bs : List Bullet) (es : List Enemy) (sc : Int),
      (∀ b ∈ bs, ∀ e ∈ es, overlaps b e = false) →
      referenceCollision bs es sc = (bs, es, sc) := by
  intro bs
  induction bs with
  | nil => intro es sc _; simp [referenceCollision]
  | cons b bs ih =>
    intro es sc h
    have hb : firstOverlapping b es = none :=
      (firstOverlapping_none b es).2 (h b (List.mem_cons_self b bs))
    have hrest := ih es sc (fun b1 hb1 => h b1 (List.mem_cons_of_mem b hb1))
    simp [referenceCollision, hb, hrest]

/-! ## The tick in closed form -/

theorem collisionDetection_tick (g : GameWidget) (d r : Int) :
    collisionDetection (bulletsBeforeCollision g) (enemiesBeforeCollision g d r) g.score
      = some ((collided g d r).1, (collided g d r).2.1, (collided g d r).2.2) := by
  rw [collisionDetection_eq]; rfl

theorem gameLoop_playing (g : GameWidget) (d r : Int) (h : g.state = GameState.Playing) :
    gameLoop g d r = some
      { g with
        state := if enemyReachedShip g.shipY (collided g d r).2.1 then GameState.GameOver
                 else GameState.Playing
        timerActive := if enemyReachedShip g.shipY (collided g d r).2.1 then false
                       else g.timerActive
        bullets := (collided g d r).1
        enemies := cleanUpEnemies (collided g d r).2.1
        score := (collided g d r).2.2 } := by
  unfold gameLoop
  rw [collisionDetection_tick]
  simp [h]

theorem gameLoop_not_playing (g : GameWidget) (d r : Int) (h : g.state ≠ GameState.Playing) :
    gameLoop g d r = some g := by
  simp [gameLoop, h]

theorem enemyReachedShip_iff (shipY : Int) (es : List Enemy) :
    enemyReachedShip shipY es = true ↔ ∃ e ∈ es, e.y + ENEMY_HEIGHT ≥ shipY := by
  induction es with
  | nil => simp [enemyReachedShip]
  | cons e es ih =>
    unfold enemyReachedShip
    by_cases h : e.y + ENEMY_HEIGHT ≥ shipY
    · simp [h]
    · simp [h, ih]

/-! ## Runs and invariants -/

theorem run_invariant (P : GameWidget → Prop)
    (hkey : ∀ g k, P g → P (keyPressEvent g k))
    (htick : ∀ g d r g1, P g → gameLoop g d r = some g1 → P g1) :
    ∀ (evs : List Event) (g g1 : GameWidget), P g → run g evs = some g1 → P g1 := by
  intro evs
  induction evs with
  | nil =>
    intro g g1 hg h
    simp [run] at h
    exact h ▸ hg
  | cons ev evs ih =>
    intro g g1 hg h
    cases ev with
    | key k =>
      simp [run, step] at h
      exact ih _ _ (hkey g k hg) h
    | tick d r =>
      simp only [run, step] at h
      cases hgl : gameLoop g d r with
      | none => simp [hgl] at h
      | some g2 =>
        simp [hgl] at h
        exact ih _ _ (htick g d r g2 hg hgl) h

theorem reachable_invariant (P : GameWidget → Prop) (hinit : P initial)
    (hkey : ∀ g k, P g → P (keyPressEvent g k))
    (htick : ∀ g d r g1, P g → gameLoop g d r = some g1 → P g1) :
    ∀ g, Reachable g → P g := by
  rintro g ⟨evs, h⟩
  exact run_invariant P hkey htick evs initial g hinit h

theorem gameLoop_ship (g g1 : GameWidget) (d r : Int) (h : gameLoop g d r = some g1) :
    g1.shipX = g.shipX ∧ g1.shipY = g.shipY := by
  by_cases hp : g.state = GameState.Playing
  · rw [gameLoop_playing g d r hp] at h
    injection h with h
    subst h
    exact ⟨rfl, rfl⟩
  · rw [gameLoop_not_playing g d r hp] at h
    injection h with h
    subst h
    exact ⟨rfl, rfl⟩

theorem shipOnGrid_key (g : GameWidget) (k : Key) (h : ShipOnGrid g) :
    ShipOnGrid (keyPressEvent g k) := by
  obtain ⟨h0, h1, h2⟩ := h
  unfold keyPressEvent
  split_ifs <;>
    simp only [ShipOnGrid, startGame, WIDTH, SHIP_WIDTH] at * <;>
    first
      | exact ⟨h0, h1, h2⟩
      | decide
      | (refine ⟨?_, ?_, ?_⟩ <;> omega)

theorem shipOnGrid_tick (g : GameWidget) (d r : Int) (g1 : GameWidget) (h : ShipOnGrid g)
    (ht : gameLoop g d r = some g1) : ShipOnGrid g1 := by
  have hs := (gameLoop_ship g g1 d r ht).1
  unfold ShipOnGrid at *
  rw [hs]
  exact h

/-! ## C1: the ship stays inside the field -/

/-- C1. In every state reachable from the constructor's state by key presses and ticks
(with any draws), `0 <= shipX <= WIDTH - SHIP_WIDTH = 360`. -/
theorem ship_bounding (g : GameWidget) (h : Reachable g) :
    0 ≤ g.shipX ∧ g.shipX ≤ WIDTH - SHIP_WIDTH ∧ WIDTH - SHIP_WIDTH = 360 := by
  have hg : ShipOnGrid g :=
    reachable_invariant ShipOnGrid (by unfold ShipOnGrid; decide) shipOnGrid_key
      shipOnGrid_tick g h
  obtain ⟨h0, h1, _⟩ := hg
  refine ⟨h0, ?_, by decide⟩
  simp only [WIDTH, SHIP_WIDTH]
  omega

/-- C1 at the state reached by start, nineteen presses of the right key and a tick. -/
theorem ship_bounding_witness :
    run initial (Event.key Key.Key_Space :: (List.replicate 19 (Event.key Key.Key_Right)
        ++ [Event.tick 0 7]))
      = some { state := GameState.Playing, shipX := 360, shipY := 570, score := 0,
               bullets := [], enemies := [⟨7, 5⟩], timerActive := true } ∧
    (0 ≤ (360 : Int) ∧ (360 : Int) ≤ WIDTH - SHIP_WIDTH ∧ WIDTH - SHIP_WIDTH = 360) :=
  ⟨by decide,
   ship_bounding
     { state := GameState.Playing, shipX := 360, shipY := 570, score := 0,
       bullets := [], enemies := [⟨7, 5⟩], timerActive := true }
     ⟨Event.key Key.Key_Space :: (List.replicate 19 (Event.key Key.Key_Right)
        ++ [Event.tick 0 7]), by decide⟩⟩

/-! ## C2: the index loops refine the reference procedure -/

theorem bulletsBeforeCollision_eq (g : GameWidget) :
    bulletsBeforeCollision g
      = moveBullets (g.bullets.filter fun b => decide (b.y ≥ 10)) := by
  unfold bulletsBeforeCollision eraseOffscreenBullets moveBullets
  rw [List.filter_map]
  congr 1
  apply List.filter_congr
  intro b _
  simp only [Function.comp]
  by_cases h : b.y ≥ 10
  · have h2 : ¬ (b.y - 10 < 0) := by omega
    simp [h, h2]
  · have h2 : b.y - 10 < 0 := by omega
    simp [h, h2]

/-- C3 as stated fails at the end of the `int` range: with the score at 2147483640, a
multiple of 10 that hits can add up to, one more hit leaves the score at -2147483646,
which is below the score before the tick and is not that score plus 10. -/
theorem score_accounting_counterexample :
    gameLoop { state := GameState.Playing, shipX := 180, shipY := 570, score := 2147483640,
               bullets := [⟨110, 120⟩], enemies := [⟨100, 95⟩], timerActive := true } 1 0
      = some { state := GameState.Playing, shipX := 180, shipY := 570,
               score := -2147483646, bullets := [], enemies := [],
               timerActive := true } ∧
    (2147483640 : Int) ≤ INT_MAX ∧
    ¬ ((2147483640 : Int) ≤ -2147483646) ∧
    (-2147483646 : Int) ≠ 2147483640 + 10 * 1 := by
  decide

/-- C3, amended. One tick of a Playing state removes `k >= 0` bullets in the collision
block (bullets with `y >= 10` before the tick that are absent after it) and as many
enemies, and leaves the score `score + 10 * k` reduced to the 32-bit range; whenever
`score + 10 * k <= INT_MAX` this is `score' = score + 10 * k` and the score does not
decrease; and a key press changes the score only when it is a start or restart, which
sets it to 0. -/
theorem score_accounting (g : GameWidget) (d r : Int) (hP : g.state = GameState.Playing)
    (hmin : INT_MIN ≤ g.score) (hmax : g.score ≤ INT_MAX) (g0 : GameWidget) (key : Key) :
    (∃ (g1 : GameWidget) (es : List Enemy) (k : Nat),
      gameLoop g d r = some g1 ∧
      collisionDetection (bulletsBeforeCollision g) (enemiesBeforeCollision g d r) g.score
        = some (g1.bullets, es, g1.score) ∧
      g1.enemies = cleanUpEnemies es ∧
      g1.bullets.length + k = (bulletsBeforeCollision g).length ∧
      g1.bullets.length + k = (g.bullets.filter fun b => decide (b.y ≥ 10)).length ∧
      es.length + k = (enemiesBeforeCollision g d r).length ∧
      g1.score = wrapInt (g.score + 10 * (k : Int)) ∧
      INT_MIN ≤ g1.score ∧ g1.score ≤ INT_MAX ∧
      (g.score + 10 * (k : Int) ≤ INT_MAX →
        g1.score = g.score + 10 * (k : Int) ∧ g.score ≤ g1.score)) ∧
    (keyPressEvent g0 key).score =
      (if (g0.state = GameState.Menu ∧ key = Key.Key_Space) ∨
          (g0.state = GameState.GameOver ∧ key = Key.Key_R) then 0 else g0.score) := by
  constructor
  · obtain ⟨k, h2, h3, h1⟩ :=
      referenceCollision_count (bulletsBeforeCollision g) (enemiesBeforeCollision g d r)
        g.score
    have hs : (collided g d r).2.2 = wrapInt (g.score + 10 * (k : Int)) := h1 hmin hmax
    have hr := wrapInt_range (g.score + 10 * (k : Int))
    refine ⟨_, (collided g d r).2.1, k, gameLoop_playing g d r hP,
      collisionDetection_tick g d r, rfl, h2, ?_, h3, hs, ?_, ?_, ?_⟩
    · have hl : (bulletsBeforeCollision g).length
          = (g.bullets.filter fun b => decide (b.y ≥ 10)).length := by
        rw [bulletsBeforeCollision_eq]; simp [moveBullets]
      rw [← hl]; exact h2
    · show INT_MIN ≤ (collided g d r).2.2
      rw [hs]; exact hr.1
    · show (collided g d r).2.2 ≤ INT_MAX
      rw [hs]; exact hr.2
    · intro hb
      have hw : wrapInt (g.score + 10 * (k : Int)) = g.score + 10 * (k : Int) :=
        wrapInt_of_range _ (by omega) hb
      show (collided g d r).2.2 = g.score + 10 * (k : Int) ∧ g.score ≤ (collided g d r).2.2
      rw [hs, hw]
      exact ⟨rfl, by omega⟩
  · unfold keyPressEvent
    cases hs : g0.state <;> cases key <;> simp [startGame] <;> split_ifs <;> rfl

/-- C3 amended, at a Playing state with score 30 in which one of two bullets hits the
only enemy: the score becomes 40. -/
theorem score_accounting_witness :
    gameLoop { state := GameState.Playing, shipX := 180, shipY := 570, score := 30,
               bullets := [⟨110, 120⟩, ⟨0, 5⟩, ⟨300, 400⟩], enemies := [⟨100, 95⟩],
               timerActive := true } 1 0
      = some { state := GameState.Playing, shipX := 180, shipY := 570, score := 40,
               bullets := [⟨300, 390⟩], enemies := [], timerActive := true } ∧
    (∃ (g1 : GameWidget) (k : Nat),
      gameLoop { state := GameState.Playing, shipX := 180, shipY := 570, score := 30,
                 bullets := [⟨110, 120⟩, ⟨0, 5⟩, ⟨300, 400⟩], enemies := [⟨100, 95⟩],
                 timerActive := true } 1 0 = some g1 ∧
      g1.bullets.length + k = 2 ∧
      (30 + 10 * (k : Int) ≤ INT_MAX → g1.score = 30 + 10 * (k : Int) ∧ 30 ≤ g1.score)) ∧
    (keyPressEvent initial Key.Key_Left).score =
      (if (initial.state = GameState.Menu ∧ Key.Key_Left = Key.Key_Space) ∨
          (initial.state = GameState.GameOver ∧ Key.Key_Left = Key.Key_R) then 0
       else initial.score) :=
  have h := score_accounting
    { state := GameState.Playing, shipX := 180, shipY := 570, score := 30,
      bullets := [⟨110, 120⟩, ⟨0, 5⟩, ⟨300, 400⟩], enemies := [⟨100, 95⟩],
      timerActive := true } 1 0 rfl (by decide) (by decide) initial Key.Key_Left
  ⟨by decide,
   let ⟨g1, _, k, h1, _, _, _, h5, _, _, _, _, h10⟩ := h.1
   ⟨g1, k, h1, h5, h10⟩,
   h.2⟩

/-! ## C4: the loss check -/

theorem mem_cleanUpEnemies (es : List Enemy) (e : Enemy) (h : e ∈ cleanUpEnemies es) :
    e ∈ es ∧ e.y ≤ HEIGHT := by
  unfold cleanUpEnemies at h
  rw [List.mem_filter] at h
  refine ⟨h.1, ?_⟩
  have h2 := h.2
  simp at h2
  exact h2

/-- C4. After one tick of a Playing state the state is GameOver if and only if some
enemy left by the collision block has `y + ENEMY_HEIGHT >= shipY`, and Playing
otherwise; when the state after the tick is Playing, every enemy of the collection after
the tick has `y + 20 < shipY`. -/
theorem loss_check (g : GameWidget) (d r : Int) (hP : g.state = GameState.Playing) :
    ∃ (g1 : GameWidget) (bs : List Bullet) (es : List Enemy) (sc : Int),
      gameLoop g d r = some g1 ∧
      collisionDetection (bulletsBeforeCollision g) (enemiesBeforeCollision g d r) g.score
        = some (bs, es, sc) ∧
      g1.shipY = g.shipY ∧
      (g1.state = GameState.GameOver ↔ ∃ e ∈ es, e.y + ENEMY_HEIGHT ≥ g.shipY) ∧
      ((¬ ∃ e ∈ es, e.y + ENEMY_HEIGHT ≥ g.shipY) → g1.state = GameState.Playing) ∧
      (g1.state = GameState.Playing → ∀ e ∈ g1.enemies, e.y + 20 < g1.shipY) := by
  refine ⟨_, _, _, _, gameLoop_playing g d r hP, collisionDetection_tick g d r, rfl,
    ?_, ?_, ?_⟩
  · rw [← enemyReachedShip_iff]
    cases enemyReachedShip g.shipY (collided g d r).2.1 <;> simp
  · rw [← enemyReachedShip_iff]
    cases enemyReachedShip g.shipY (collided g d r).2.1 <;> simp
  · intro hs e he
    have hno : enemyReachedShip g.shipY (collided g d r).2.1 = false := by
      cases hr : enemyReachedShip g.shipY (collided g d r).2.1 with
      | false => rfl
      | true => simp [hr] at hs
    have hmem := (mem_cleanUpEnemies _ e he).1
    by_contra hc
    have : enemyReachedShip g.shipY (collided g d r).2.1 = true :=
      (enemyReachedShip_iff _ _).2 ⟨e, hmem, by
        simp only [ENEMY_HEIGHT]
        show g.shipY ≤ e.y + 20
        have : ¬ e.y + 20 < g.shipY := hc
        omega⟩
    rw [hno] at this
    exact Bool.noConfusion this

/-- C4 at a Playing state whose second enemy reaches the ship in this tick. -/
theorem loss_check_witness :
    gameLoop { state := GameState.Playing, shipX := 180, shipY := 570, score := 0,
               bullets := [], enemies := [⟨10, 100⟩, ⟨50, 545⟩], timerActive := true } 1 0
      = some { state := GameState.GameOver, shipX := 180, shipY := 570, score := 0,
               bullets := [], enemies := [⟨10, 105⟩, ⟨50, 550⟩], timerActive := false } ∧
    ∃ (g1 : GameWidget) (bs : List Bullet) (es : List Enemy) (sc : Int),
      gameLoop { state := GameState.Playing, shipX := 180, shipY := 570, score := 0,
                 bullets := [], enemies := [⟨10, 100⟩, ⟨50, 545⟩], timerActive := true } 1 0
        = some g1 ∧
      collisionDetection [] [⟨10, 105⟩, ⟨50, 550⟩] 0 = some (bs, es, sc) ∧
      g1.shipY = 570 ∧
      (g1.state = GameState.GameOver ↔ ∃ e ∈ es, e.y + ENEMY_HEIGHT ≥ 570) ∧
      ((¬ ∃ e ∈ es, e.y + ENEMY_HEIGHT ≥ 570) → g1.state = GameState.Playing) ∧
      (g1.state = GameState.Playing → ∀ e ∈ g1.enemies, e.y + 20 < g1.shipY) :=
  ⟨by decide,
   loss_check { state := GameState.Playing, shipX := 180, shipY := 570, score := 0,
                bullets := [], enemies := [⟨10, 100⟩, ⟨50, 545⟩], timerActive := true } 1 0
     rfl⟩

/-! ## C5: start and restart -/

/-- C5. Space in a Menu state and R in a GameOver state both yield Playing, no bullets,
no enemies, score 0 and `shipX = WIDTH/2 - SHIP_WIDTH/2 = 180`, with `shipY` unchanged;
the two results are the same state whatever the bullets, enemies, score and `shipX` were
before (given the same `shipY`). -/
theorem start_restart_reset (gm go : GameWidget) (hm : gm.state = GameState.Menu)
    (ho : go.state = GameState.GameOver) :
    (keyPressEvent gm Key.Key_Space).state = GameState.Playing ∧
    (keyPressEvent gm Key.Key_Space).bullets = [] ∧
    (keyPressEvent gm Key.Key_Space).enemies = [] ∧
    (keyPressEvent gm Key.Key_Space).score = 0 ∧
    (keyPressEvent gm Key.Key_Space).shipX = WIDTH.tdiv 2 - SHIP_WIDTH.tdiv 2 ∧
    (keyPressEvent gm Key.Key_Space).shipX = 180 ∧
    (keyPressEvent gm Key.Key_Space).shipY = gm.shipY ∧
    (keyPressEvent go Key.Key_R).state = GameState.Playing ∧
    (keyPressEvent go Key.Key_R).bullets = [] ∧
    (keyPressEvent go Key.Key_R).enemies = [] ∧
    (keyPressEvent go Key.Key_R).score = 0 ∧
    (keyPressEvent go Key.Key_R).shipX = 180 ∧
    (keyPressEvent go Key.Key_R).shipY = go.shipY ∧
    (gm.shipY = go.shipY → keyPressEvent go Key.Key_R = keyPressEvent gm Key.Key_Space) := by
  have e1 : keyPressEvent gm Key.Key_Space = startGame gm := by
    simp [keyPressEvent, hm]
  have e2 : keyPressEvent go Key.Key_R = startGame go := by
    simp [keyPressEvent, ho]
  rw [e1, e2]
  have h180 : WIDTH.tdiv 2 - SHIP_WIDTH.tdiv 2 = 180 := by decide
  refine ⟨rfl, rfl, rfl, rfl, rfl, h180, rfl, rfl, rfl, rfl, rfl, h180, rfl, ?_⟩
  intro hy
  simp [startGame, hy]

/-- C5 at the constructor's state and at a GameOver state with bullets, enemies, a score
and a ship away from the centre. -/
theorem start_restart_reset_witness :
    keyPressEvent { state := GameState.GameOver, shipX := 40, shipY := 570, score := 70,
                    bullets := [⟨58, 300⟩], enemies := [⟨12, 550⟩, ⟨200, 90⟩],
                    timerActive := false } Key.Key_R
      = { state := GameState.Playing, shipX := 180, shipY := 570, score := 0,
          bullets := [], enemies := [], timerActive := true } ∧
    keyPressEvent { state := GameState.GameOver, shipX := 40, shipY := 570, score := 70,
                    bullets := [⟨58, 300⟩], enemies := [⟨12, 550⟩, ⟨200, 90⟩],
                    timerActive := false } Key.Key_R
      = keyPressEvent initial Key.Key_Space :=
  ⟨by decide,
   (start_restart_reset initial
      { state := GameState.GameOver, shipX := 40, shipY := 570, score := 70,
        bullets := [⟨58, 300⟩], enemies := [⟨12, 550⟩, ⟨200, 90⟩], timerActive := false }
      rfl rfl).2.2.2.2.2.2.2.2.2.2.2.2.2 (by decide)⟩

/-! ## C6: nothing runs outside Playing -/

/-- C6. In a Menu or GameOver state a tick (with any draws) leaves the whole state
unchanged, and so does every key press other than the state's trigger (Space in Menu, R
in GameOver): Space in GameOver, R in Menu, Left, Right and any other key change
nothing. -/
theorem idle_outside_playing (g : GameWidget) (d r : Int) (key : Key)
    (h : g.state = GameState.Menu ∨ g.state = GameState.GameOver) :
    gameLoop g d r = some g ∧
    (¬ (g.state = GameState.Menu ∧ key = Key.Key_Space) →
      ¬ (g.state = GameState.GameOver ∧ key = Key.Key_R) → keyPressEvent g key = g) ∧
    (g.state = GameState.GameOver → keyPressEvent g Key.Key_Space = g) ∧
    (g.state = GameState.Menu → keyPressEvent g Key.Key_R = g) ∧
    keyPressEvent g Key.Key_Left = g ∧
    keyPressEvent g Key.Key_Right = g ∧
    keyPressEvent g Key.Key_Other = g := by
  have hnp : g.state ≠ GameState.Playing := by
    rcases h with h | h <;> rw [h] <;> decide
  refine ⟨gameLoop_not_playing g d r hnp, ?_, ?_, ?_, ?_, ?_, ?_⟩
  · intro h1 h2
    simp [keyPressEvent, h1, h2, hnp]
  · intro hs
    simp [keyPressEvent, hs]
  · intro hs
    simp [keyPressEvent, hs]
  · simp [keyPressEvent, hnp]
  · simp [keyPressEvent, hnp]
  · simp [keyPressEvent, hnp]

/-- C6 at a GameOver state with a bullet and an enemy on the field: a tick that would
spawn and the fire key both leave it as it is. -/
theorem idle_outside_playing_witness :
    gameLoop { state := GameState.GameOver, shipX := 40, shipY := 570, score := 70,
               bullets := [⟨58, 300⟩], enemies := [⟨12, 550⟩], timerActive := false } 0 5
      = some { state := GameState.GameOver, shipX := 40, shipY := 570, score := 70,
               bullets := [⟨58, 300⟩], enemies := [⟨12, 550⟩], timerActive := false } ∧
    keyPressEvent { state := GameState.GameOver, shipX := 40, shipY := 570, score := 70,
                    bullets := [⟨58, 300⟩], enemies := [⟨12, 550⟩], timerActive := false }
        Key.Key_Space
      = { state := GameState.GameOver, shipX := 40, shipY := 570, score := 70,
          bullets := [⟨58, 300⟩], enemies := [⟨12, 550⟩], timerActive := false } :=
  have h := idle_outside_playing
    { state := GameState.GameOver, shipX := 40, shipY := 570, score := 70,
      bullets := [⟨58, 300⟩], enemies := [⟨12, 550⟩], timerActive := false } 0 5
    Key.Key_Space (Or.inr rfl)
  ⟨h.1, h.2.1 (by decide) (by decide)⟩

/-! ## C7: ship movement -/

/-- C7 as stated fails: at `shipX = 5` the left key gives `-5`, not `max 0 (5 - 10) = 0`,
and at `shipX = 355` the right key gives `365`, not `min 360 365 = 360`. -/
theorem clamped_movement_counterexample :
    ¬ (∀ g : GameWidget, g.state = GameState.Playing → 0 ≤ g.shipX → g.shipX ≤ 360 →
        (keyPressEvent g Key.Key_Left).shipX = max 0 (g.shipX - 10) ∧
        (keyPressEvent g Key.Key_Right).shipX = min (WIDTH - SHIP_WIDTH) (g.shipX + 10)) ∧
    (keyPressEvent { state := GameState.Playing, shipX := 5, shipY := 570, score := 0,
                     bullets := [], enemies := [], timerActive := true }
        Key.Key_Left).shipX = -5 ∧
    (keyPressEvent { state := GameState.Playing, shipX := 355, shipY := 570, score := 0,
                     bullets := [], enemies := [], timerActive := true }
        Key.Key_Right).shipX = 365 := by
  refine ⟨?_, by decide, by decide⟩
  intro h
  have h5 := (h { state := GameState.Playing, shipX := 5, shipY := 570, score := 0,
                  bullets := [], enemies := [], timerActive := true }
    rfl (by decide) (by decide)).1
  revert h5
  decide

/-- C7, amended. In a Playing state with `0 <= shipX <= 360` the left key subtracts 10
when `shipX > 0` and the right key adds 10 when `shipX + SHIP_WIDTH < WIDTH`, each leaving
everything else unchanged; the result is `max 0 (shipX - 10)` exactly when `shipX = 0` or
`shipX >= 10`, and `min 360 (shipX + 10)` exactly when `shipX <= 350` or `shipX = 360`,
so both clamps hold at every multiple of 10. -/
theorem guarded_movement (g : GameWidget) (hP : g.state = GameState.Playing)
    (h0 : 0 ≤ g.shipX) (h1 : g.shipX ≤ 360) :
    keyPressEvent g Key.Key_Left
      = { g with shipX := if g.shipX > 0 then g.shipX - 10 else g.shipX } ∧
    keyPressEvent g Key.Key_Right
      = { g with shipX := if g.shipX < 360 then g.shipX + 10 else g.shipX } ∧
    ((keyPressEvent g Key.Key_Left).shipX = max 0 (g.shipX - 10)
      ↔ (g.shipX = 0 ∨ 10 ≤ g.shipX)) ∧
    ((keyPressEvent g Key.Key_Right).shipX = min (WIDTH - SHIP_WIDTH) (g.shipX + 10)
      ↔ (g.shipX ≤ 350 ∨ g.shipX = 360)) ∧
    (g.shipX % 10 = 0 →
      (keyPressEvent g Key.Key_Left).shipX = max 0 (g.shipX - 10) ∧
      (keyPressEvent g Key.Key_Right).shipX = min 360 (g.shipX + 10)) := by
  have eL : keyPressEvent g Key.Key_Left
      = { g with shipX := if g.shipX > 0 then g.shipX - 10 else g.shipX } := by
    obtain ⟨st, x, y, sc, bs, es, t⟩ := g
    simp only at hP
    subst hP
    unfold keyPressEvent
    by_cases hx : x > 0 <;> simp [hx]
  have eR : keyPressEvent g Key.Key_Right
      = { g with shipX := if g.shipX < 360 then g.shipX + 10 else g.shipX } := by
    obtain ⟨st, x, y, sc, bs, es, t⟩ := g
    simp only at hP
    subst hP
    unfold keyPressEvent
    by_cases hx : x < 360
    · have hx2 : x + SHIP_WIDTH < WIDTH := by simp only [SHIP_WIDTH, WIDTH]; omega
      simp [hx, hx2]
    · have hx2 : ¬ x + SHIP_WIDTH < WIDTH := by simp only [SHIP_WIDTH, WIDTH]; omega
      simp [hx, hx2]
  refine ⟨eL, eR, ?_, ?_, ?_⟩
  · rw [eL]
    show (if g.shipX > 0 then g.shipX - 10 else g.shipX) = max 0 (g.shipX - 10) ↔ _
    split_ifs <;> omega
  · rw [eR]
    show (if g.shipX < 360 then g.shipX + 10 else g.shipX)
      = min (WIDTH - SHIP_WIDTH) (g.shipX + 10) ↔ _
    simp only [WIDTH, SHIP_WIDTH]
    split_ifs <;> omega
  · intro hm
    rw [eL, eR]
    show (if g.shipX > 0 then g.shipX - 10 else g.shipX) = max 0 (g.shipX - 10) ∧
      (if g.shipX < 360 then g.shipX + 10 else g.shipX) = min 360 (g.shipX + 10)
    constructor <;> split_ifs <;> omega

/-- C7 amended, at a Playing state with the ship at 350, a bullet and an enemy. -/
theorem guarded_movement_witness :
    keyPressEvent { state := GameState.Playing, shipX := 350, shipY := 570, score := 20,
                    bullets := [⟨58, 300⟩], enemies := [⟨12, 50⟩], timerActive := true }
        Key.Key_Right
      = { state := GameState.Playing, shipX := 360, shipY := 570, score := 20,
          bullets := [⟨58, 300⟩], enemies := [⟨12, 50⟩], timerActive := true } :=
  (guarded_movement
    { state := GameState.Playing, shipX := 350, shipY := 570, score := 20,
      bullets := [⟨58, 300⟩], enemies := [⟨12, 50⟩], timerActive := true }
    rfl (by decide) (by decide)).2.1

/-! ## C8: the overlap test -/

theorem overlaps_iff (b : Bullet) (e : Enemy) :
    overlaps b e = true ↔
      (b.x < e.x + 30 ∧ b.x + 5 > e.x ∧ b.y < e.y + 20 ∧ b.y + 10 > e.y) := by
  simp [overlaps, ENEMY_WIDTH, ENEMY_HEIGHT, BULLET_WIDTH, BULLET_HEIGHT, and_assoc]

/-- C8. The overlap test of `gameLoop` holds exactly when the half-open rectangles
`[bx, bx+5) x [by, by+10)` and `[ex, ex+30) x [ey, ey+20)` share an integer point.  So it
fails when edges touch (`bx + 5 = ex`, `bx = ex + 30`, `by + 10 = ey`, `by = ey + 20`), it
holds when the rectangles overlap by one unit on one axis and overlap on the other, and
it holds for the bullet (110,105) and the enemy (100,100). -/
theorem collision_exactness :
    (∀ (b : Bullet) (e : Enemy), overlaps b e = true ↔
      ∃ px py : Int, (b.x ≤ px ∧ px < b.x + 5) ∧ (b.y ≤ py ∧ py < b.y + 10) ∧
        (e.x ≤ px ∧ px < e.x + 30) ∧ (e.y ≤ py ∧ py < e.y + 20)) ∧
    (∀ (b : Bullet) (e : Enemy),
      (b.x + 5 = e.x ∨ b.x = e.x + 30 ∨ b.y + 10 = e.y ∨ b.y = e.y + 20) →
      overlaps b e = false) ∧
    (∀ (b : Bullet) (e : Enemy), (b.x + 5 = e.x + 1 ∨ b.x = e.x + 29) →
      (b.y < e.y + 20 ∧ b.y + 10 > e.y) → overlaps b e = true) ∧
    (∀ (b : Bullet) (e : Enemy), (b.y + 10 = e.y + 1 ∨ b.y = e.y + 19) →
      (b.x < e.x + 30 ∧ b.x + 5 > e.x) → overlaps b e = true) ∧
    (∀ ex ey : Int, overlaps ⟨ex - 4, ey⟩ ⟨ex, ey⟩ = true) ∧
    overlaps ⟨110, 105⟩ ⟨100, 100⟩ = true := by
  refine ⟨?_, ?_, ?_, ?_, ?_, by decide⟩
  · intro b e
    rw [overlaps_iff]
    constructor
    · rintro ⟨h1, h2, h3, h4⟩
      refine ⟨max b.x e.x, max b.y e.y, ?_, ?_, ?_, ?_⟩ <;> omega
    · rintro ⟨px, py, ⟨h1, h2⟩, ⟨h3, h4⟩, ⟨h5, h6⟩, ⟨h7, h8⟩⟩
      omega
  · intro b e h
    cases ho : overlaps b e with
    | false => rfl
    | true =>
      have := (overlaps_iff b e).1 ho
      omega
  · intro b e h1 h2
    rw [overlaps_iff]
    omega
  · intro b e h1 h2
    rw [overlaps_iff]
    omega
  · intro ex ey
    rw [overlaps_iff]
    refine ⟨?_, ?_, ?_, ?_⟩ <;> simp only [] <;> omega

/-- C8 at a bullet whose right edge touches the enemy's left edge, and at the same bullet
moved one unit to the right. -/
theorem collision_exactness_witness :
    overlaps ⟨95, 105⟩ ⟨100, 100⟩ = false ∧ overlaps ⟨96, 105⟩ ⟨100, 100⟩ = true :=
  ⟨collision_exactness.2.1 ⟨95, 105⟩ ⟨100, 100⟩ (Or.inl (by decide)),
   collision_exactness.2.2.1 ⟨96, 105⟩ ⟨100, 100⟩ (Or.inl (by decide))
     ⟨by decide, by decide⟩⟩

/-! ## C9: bullets after a tick -/

theorem moveBullets_injective :
    Function.Injective (fun b : Bullet => ({ b with y := b.y - 10 } : Bullet)) := by
  intro a b h
  cases a
  cases b
  simp only [Bullet.mk.injEq] at h ⊢
  exact ⟨h.1, by omega⟩

/-- C9. After one tick of a Playing state the bullets are an order-preserving subsequence
of the bullets before the tick, each with the same `x` and `y` reduced by 10; none has
`y < 0`; no bullet occurs more often than before; and when no bullet entering the
collision block overlaps an enemy entering it (for instance when there is no enemy and
none is spawned) the bullets are exactly those with `y >= 10` before the tick, in order,
each moved up by 10. -/
theorem bullet_advance (g : GameWidget) (d r : Int) (hP : g.state = GameState.Playing) :
    ∃ g1 : GameWidget, gameLoop g d r = some g1 ∧
      (∃ sub : List Bullet, sub.Sublist g.bullets ∧
        g1.bullets = sub.map fun b => { x := b.x, y := b.y - 10 }) ∧
      (∀ b ∈ g1.bullets, ¬ b.y < 0) ∧
      (∀ b : Bullet, g1.bullets.count { x := b.x, y := b.y - 10 } ≤ g.bullets.count b) ∧
      ((∀ b ∈ bulletsBeforeCollision g, ∀ e ∈ enemiesBeforeCollision g d r,
          overlaps b e = false) →
        g1.bullets = (g.bullets.filter fun b => decide (b.y ≥ 10)).map
          fun b => { x := b.x, y := b.y - 10 }) ∧
      (g.enemies = [] → d.tmod 20 ≠ 0 →
        g1.bullets = (g.bullets.filter fun b => decide (b.y ≥ 10)).map
          fun b => { x := b.x, y := b.y - 10 }) := by
  have hsub : (collided g d r).1.Sublist (bulletsBeforeCollision g) :=
    referenceCollision_bullets_sublist _ _ _
  have hsub2 : (collided g d r).1.Sublist (moveBullets g.bullets) :=
    hsub.trans (List.filter_sublist _)
  have hnone : (∀ b ∈ bulletsBeforeCollision g, ∀ e ∈ enemiesBeforeCollision g d r,
      overlaps b e = false) →
      (collided g d r).1 = (g.bullets.filter fun b => decide (b.y ≥ 10)).map
        fun b => { x := b.x, y := b.y - 10 } := by
    intro h
    unfold collided
    rw [referenceCollision_no_overlap _ _ _ h, bulletsBeforeCollision_eq]
    rfl
  refine ⟨_, gameLoop_playing g d r hP, ?_, ?_, ?_, hnone, ?_⟩
  · obtain ⟨sub, h1, h2⟩ := List.sublist_map_iff.1 hsub2
    exact ⟨sub, h1, h2⟩
  · intro b hb
    have hmem : b ∈ bulletsBeforeCollision g := hsub.subset hb
    unfold bulletsBeforeCollision eraseOffscreenBullets at hmem
    rw [List.mem_filter] at hmem
    simpa using hmem.2
  · intro b
    have h1 := hsub2.count_le ({ x := b.x, y := b.y - 10 } : Bullet)
    have h2 : (moveBullets g.bullets).count ({ x := b.x, y := b.y - 10 } : Bullet)
        = g.bullets.count b :=
      List.count_map_of_injective g.bullets _ moveBullets_injective b
    exact h2 ▸ h1
  · intro he hd
    apply hnone
    intro b _ e hmem
    simp [enemiesBeforeCollision, spawnEnemy, moveEnemies, he, hd] at hmem

/-- C9 at a Playing state with four bullets: one leaves the field, one hits the enemy,
two stay. -/
theorem bullet_advance_witness :
    gameLoop { state := GameState.Playing, shipX := 180, shipY := 570, score := 0,
               bullets := [⟨20, 300⟩, ⟨110, 120⟩, ⟨0, 9⟩, ⟨300, 10⟩],
               enemies := [⟨100, 95⟩], timerActive := true } 1 0
      = some { state := GameState.Playing, shipX := 180, shipY := 570, score := 10,
               bullets := [⟨20, 290⟩, ⟨300, 0⟩], enemies := [], timerActive := true } ∧
    ∃ g1 : GameWidget,
      gameLoop { state := GameState.Playing, shipX := 180, shipY := 570, score := 0,
                 bullets := [⟨20, 300⟩, ⟨110, 120⟩, ⟨0, 9⟩, ⟨300, 10⟩],
                 enemies := [⟨100, 95⟩], timerActive := true } 1 0 = some g1 ∧
      ∀ b ∈ g1.bullets, ¬ b.y < 0 :=
  ⟨by decide,
   let ⟨g1, h1, _, h3, _⟩ := bullet_advance
     { state := GameState.Playing, shipX := 180, shipY := 570, score := 0,
       bullets := [⟨20, 300⟩, ⟨110, 120⟩, ⟨0, 9⟩, ⟨300, 10⟩],
       enemies := [⟨100, 95⟩], timerActive := true } 1 0 rfl
   ⟨g1, h1, h3⟩⟩

/-! ## C10: enemies after a tick -/

/-- C10. After one tick of a Playing state every enemy has `y <= HEIGHT = 600`, and the
enemies are an order-preserving subsequence of the enemies before the tick, each with the
same `x` and `y` increased by 5, followed by nothing or by the one enemy spawned in this
tick. -/
theorem enemy_advance (g : GameWidget) (d r : Int) (hP : g.state = GameState.Playing) :
    ∃ g1 : GameWidget, gameLoop g d r = some g1 ∧
      (∀ e ∈ g1.enemies, e.y ≤ HEIGHT) ∧ HEIGHT = 600 ∧
      ∃ (sub spawned : List Enemy), sub.Sublist g.enemies ∧
        g1.enemies = (sub.map fun e => { x := e.x, y := e.y + 5 }) ++ spawned ∧
        (spawned = [] ∨
          (d.tmod 20 = 0 ∧ spawned = [{ x := r.tmod (WIDTH - ENEMY_WIDTH), y := 0 + 5 }])) := by
  refine ⟨_, gameLoop_playing g d r hP, ?_, rfl, ?_⟩
  · intro e he
    exact (mem_cleanUpEnemies _ e he).2
  · have hsub : (cleanUpEnemies (collided g d r).2.1).Sublist (enemiesBeforeCollision g d r) :=
      (List.filter_sublist _).trans (referenceCollision_enemies_sublist _ _ _)
    show ∃ (sub spawned : List Enemy), sub.Sublist g.enemies ∧
        cleanUpEnemies (collided g d r).2.1
          = (sub.map fun e => { x := e.x, y := e.y + 5 }) ++ spawned ∧ _
    by_cases hd : d.tmod 20 = 0
    · have hE : enemiesBeforeCollision g d r
          = (g.enemies.map fun e => ({ x := e.x, y := e.y + 5 } : Enemy))
            ++ [{ x := r.tmod (WIDTH - ENEMY_WIDTH), y := 0 + 5 }] := by
        simp [enemiesBeforeCollision, spawnEnemy, moveEnemies, hd]
      rw [hE] at hsub
      obtain ⟨a, b, hab, ha, hb⟩ := List.sublist_append_iff.1 hsub
      obtain ⟨sub, hs1, hs2⟩ := List.sublist_map_iff.1 ha
      refine ⟨sub, b, hs1, by rw [hab, hs2], ?_⟩
      rcases List.sublist_singleton.1 hb with h | h
      · exact Or.inl h
      · exact Or.inr ⟨hd, h⟩
    · have hE : enemiesBeforeCollision g d r
          = g.enemies.map fun e => ({ x := e.x, y := e.y + 5 } : Enemy) := by
        simp [enemiesBeforeCollision, spawnEnemy, moveEnemies, hd]
      rw [hE] at hsub
      obtain ⟨sub, hs1, hs2⟩ := List.sublist_map_iff.1 hsub
      exact ⟨sub, [], hs1, by rw [hs2, List.append_nil], Or.inl rfl⟩

/-- C10 at a Playing state with three enemies on a spawning tick: the first enemy is
shot, the others move down and the spawned enemy follows them. -/
theorem enemy_advance_witness :
    gameLoop { state := GameState.Playing, shipX := 180, shipY := 570, score := 0,
               bullets := [⟨110, 120⟩],
               enemies := [⟨100, 95⟩, ⟨10, 40⟩, ⟨200, 15⟩], timerActive := true } 40 375
      = some { state := GameState.Playing, shipX := 180, shipY := 570, score := 10,
               bullets := [], enemies := [⟨10, 45⟩, ⟨200, 20⟩, ⟨5, 5⟩],
               timerActive := true } ∧
    ∃ g1 : GameWidget,
      gameLoop { state := GameState.Playing, shipX := 180, shipY := 570, score := 0,
                 bullets := [⟨110, 120⟩],
                 enemies := [⟨100, 95⟩, ⟨10, 40⟩, ⟨200, 15⟩], timerActive := true } 40 375
        = some g1 ∧
      ∀ e ∈ g1.enemies, e.y ≤ HEIGHT :=
  ⟨by decide,
   let ⟨g1, h1, h2, _⟩ := enemy_advance
     { state := GameState.Playing, shipX := 180, shipY := 570, score := 0,
       bullets := [⟨110, 120⟩],
       enemies := [⟨100, 95⟩, ⟨10, 40⟩, ⟨200, 15⟩], timerActive := true } 40 375 rfl
   ⟨g1, h1, h2⟩⟩

/-! ## C11: the spawn rule -/

theorem spawnEnemy_of_spawn (es : List Enemy) (d r : Int) (h : d.tmod 20 = 0) :
    spawnEnemy es d r = es ++ [{ x := r.tmod (WIDTH - ENEMY_WIDTH), y := 0 }] := by
  simp [spawnEnemy, h]

theorem spawnEnemy_of_no_spawn (es : List Enemy) (d r : Int) (h : d.tmod 20 ≠ 0) :
    spawnEnemy es d r = es := by
  simp [spawnEnemy, h]

/-- C11. In a tick of a Playing state with a first draw `d >= 0`, a new enemy is created
if and only if `d mod 20 = 0`; at most one is created; it is appended after all existing
enemies at `y = 0`, so that it enters the collision block at `y = 5`; and when
`d mod 20 != 0` the enemies entering the collision block are exactly the enemies before
the tick, each moved down by 5. -/
theorem spawn_rule (g : GameWidget) (d r : Int) (hP : g.state = GameState.Playing)
    (hd : 0 ≤ d) :
    (∃ (g1 : GameWidget) (es : List Enemy), gameLoop g d r = some g1 ∧
      collisionDetection (bulletsBeforeCollision g)
        (moveEnemies (spawnEnemy g.enemies d r)) g.score = some (g1.bullets, es, g1.score) ∧
      g1.enemies = cleanUpEnemies es) ∧
    ((spawnEnemy g.enemies d r).length = g.enemies.length + 1 ↔ d % 20 = 0) ∧
    (spawnEnemy g.enemies d r).length ≤ g.enemies.length + 1 ∧
    (d % 20 = 0 →
      spawnEnemy g.enemies d r
        = g.enemies ++ [{ x := r.tmod (WIDTH - ENEMY_WIDTH), y := 0 }] ∧
      enemiesBeforeCollision g d r
        = (g.enemies.map fun e => { x := e.x, y := e.y + 5 })
          ++ [{ x := r.tmod (WIDTH - ENEMY_WIDTH), y := 5 }]) ∧
    (d % 20 ≠ 0 →
      spawnEnemy g.enemies d r = g.enemies ∧
      enemiesBeforeCollision g d r = g.enemies.map fun e => { x := e.x, y := e.y + 5 }) := by
  have hmod : d.tmod 20 = d % 20 := Int.tmod_eq_emod hd (by decide)
  refine ⟨⟨_, _, gameLoop_playing g d r hP, collisionDetection_tick g d r, rfl⟩, ?_, ?_, ?_, ?_⟩
  · by_cases h : d % 20 = 0
    · rw [spawnEnemy_of_spawn _ _ _ (hmod.trans h)]
      simp [h]
    · rw [spawnEnemy_of_no_spawn _ _ _ (fun hc => h (hmod ▸ hc))]
      simp [h]
  · by_cases h : d % 20 = 0
    · rw [spawnEnemy_of_spawn _ _ _ (hmod.trans h)]
      simp
    · rw [spawnEnemy_of_no_spawn _ _ _ (fun hc => h (hmod ▸ hc))]
      omega
  · intro h
    have hs := spawnEnemy_of_spawn g.enemies d r (hmod.trans h)
    refine ⟨hs, ?_⟩
    unfold enemiesBeforeCollision
    rw [hs]
    simp [moveEnemies]
  · intro h
    have hs := spawnEnemy_of_no_spawn g.enemies d r (fun hc => h (hmod ▸ hc))
    refine ⟨hs, ?_⟩
    unfold enemiesBeforeCollision
    rw [hs]
    rfl

/-- C11 at a Playing state with one enemy and the draws 40 (a spawn) and 375. -/
theorem spawn_rule_witness :
    enemiesBeforeCollision
        { state := GameState.Playing, shipX := 180, shipY := 570, score := 0,
          bullets := [], enemies := [⟨10, 40⟩], timerActive := true } 40 375
      = [⟨10, 45⟩, ⟨5, 5⟩] :=
  ((spawn_rule
      { state := GameState.Playing, shipX := 180, shipY := 570, score := 0,
        bullets := [], enemies := [⟨10, 40⟩], timerActive := true } 40 375 rfl
      (by decide)).2.2.2.1 (by decide)).2

/-! ## C12: the range of the spawn position -/

/-- C12 as stated fails: no draw, negative or not, makes the spawn step produce an enemy
at `x = 370`. -/
theorem spawn_range_counterexample :
    ¬ ∃ r : Int, spawnEnemy [] 0 r = [{ x := 370, y := 0 }] := by
  rintro ⟨r, h⟩
  rw [spawnEnemy_of_spawn [] 0 r (by decide)] at h
  simp only [List.nil_append, List.cons.injEq, Enemy.mk.injEq, and_true] at h
  have hlt := Int.tmod_lt_of_pos r (show (0 : Int) < WIDTH - ENEMY_WIDTH by decide)
  rw [h] at hlt
  exact absurd hlt (by decide)

/-- C12, amended. On a spawning tick the new enemy's `x`, computed from the second draw
`r >= 0`, lies in `[0, WIDTH - ENEMY_WIDTH - 1] = [0, 369]` (so inside `[0, 370]`), and
every integer of `[0, 369]` is the `x` produced by some draw `r >= 0`. -/
theorem spawn_range (es : List Enemy) (d : Int) (hd : d.tmod 20 = 0) :
    (∀ r : Int, 0 ≤ r → ∃ x : Int, spawnEnemy es d r = es ++ [{ x := x, y := 0 }] ∧
      0 ≤ x ∧ x ≤ WIDTH - ENEMY_WIDTH - 1 ∧ x ≤ 369 ∧ x = r % 370) ∧
    (∀ x : Int, 0 ≤ x → x ≤ 369 →
      ∃ r : Int, 0 ≤ r ∧ spawnEnemy es d r = es ++ [{ x := x, y := 0 }]) := by
  constructor
  · intro r hr
    refine ⟨r.tmod (WIDTH - ENEMY_WIDTH), spawnEnemy_of_spawn es d r hd, ?_⟩
    have h1 : r.tmod (WIDTH - ENEMY_WIDTH) = r % 370 := Int.tmod_eq_emod hr (by decide)
    have h2 : (0 : Int) ≤ r % 370 ∧ r % 370 ≤ 369 := by omega
    have h3 : WIDTH - ENEMY_WIDTH - 1 = 369 := by decide
    rw [h1, h3]
    exact ⟨h2.1, h2.2, h2.2, rfl⟩
  · intro x h0 h1
    refine ⟨x, h0, ?_⟩
    rw [spawnEnemy_of_spawn es d x hd]
    have : x.tmod (WIDTH - ENEMY_WIDTH) = x :=
      Int.tmod_eq_of_lt h0 (by simp only [WIDTH, ENEMY_WIDTH]; omega)
    rw [this]

/-- C12 amended, at the draws 20 and 739: the enemy is spawned at `x = 369`. -/
theorem spawn_range_witness :
    spawnEnemy [⟨10, 40⟩] 20 739 = [⟨10, 40⟩, ⟨369, 0⟩] ∧
    ∃ x : Int, spawnEnemy [⟨10, 40⟩] 20 739 = [⟨10, 40⟩] ++ [{ x := x, y := 0 }] ∧
      0 ≤ x ∧ x ≤ WIDTH - ENEMY_WIDTH - 1 ∧ x ≤ 369 ∧ x = 739 % 370 :=
  ⟨by decide, (spawn_range [⟨10, 40⟩] 20 (by decide)).1 739 (by decide)⟩

/-! ## C13: the cleanup on a losing tick -/

/-- C13 as stated fails: with the only enemy at `y = 600` the tick ends in GameOver, the
enemy stands at `y = 605` after the collision block, and the cleanup removes it in that
same tick. -/
theorem loss_skips_cleanup_counterexample :
    gameLoop { state := GameState.Playing, shipX := 180, shipY := 570, score := 0,
               bullets := [], enemies := [⟨0, 600⟩], timerActive := true } 1 0
      = some { state := GameState.GameOver, shipX := 180, shipY := 570, score := 0,
               bullets := [], enemies := [], timerActive := false } ∧
    collisionDetection
        (bulletsBeforeCollision
          { state := GameState.Playing, shipX := 180, shipY := 570, score := 0,
            bullets := [], enemies := [⟨0, 600⟩], timerActive := true })
        (enemiesBeforeCollision
          { state := GameState.Playing, shipX := 180, shipY := 570, score := 0,
            bullets := [], enemies := [⟨0, 600⟩], timerActive := true } 1 0) 0
      = some ([], [⟨0, 605⟩], 0) ∧
    ([] : List Enemy) ≠ [⟨0, 605⟩] := by
  decide

/-- C13, amended. If one tick of a Playing state ends in GameOver, the bullets after the
tick are those left by the collision block, and the enemies after the tick are those left
by the collision block without the ones with `y > 600`: the cleanup runs on that tick
too.  The enemies equal those left by the collision block exactly when none of them has
`y > 600`. -/
theorem loss_tick_cleanup (g : GameWidget) (d r : Int) (g1 : GameWidget)
    (hP : g.state = GameState.Playing) (ht : gameLoop g d r = some g1)
    (hover : g1.state = GameState.GameOver) :
    ∃ (bs : List Bullet) (es : List Enemy) (sc : Int),
      collisionDetection (bulletsBeforeCollision g) (enemiesBeforeCollision g d r) g.score
        = some (bs, es, sc) ∧
      (∃ e ∈ es, e.y + ENEMY_HEIGHT ≥ g.shipY) ∧
      g1.bullets = bs ∧
      g1.enemies = es.filter (fun e => decide (e.y ≤ HEIGHT)) ∧
      (g1.enemies = es ↔ ∀ e ∈ es, e.y ≤ HEIGHT) := by
  rw [gameLoop_playing g d r hP] at ht
  injection ht with ht
  subst ht
  have hf : cleanUpEnemies (collided g d r).2.1
      = (collided g d r).2.1.filter (fun e => decide (e.y ≤ HEIGHT)) := by
    unfold cleanUpEnemies
    apply List.filter_congr
    intro e _
    by_cases h : e.y ≤ HEIGHT
    · have h2 : ¬ e.y > HEIGHT := by omega
      simp [h, h2]
    · have h2 : e.y > HEIGHT := by omega
      simp [h, h2]
  refine ⟨_, (collided g d r).2.1, _, collisionDetection_tick g d r, ?_, rfl, hf, ?_⟩
  · rw [← enemyReachedShip_iff]
    cases hr : enemyReachedShip g.shipY (collided g d r).2.1 with
    | true => rfl
    | false => simp [hr] at hover
  · show cleanUpEnemies (collided g d r).2.1 = (collided g d r).2.1 ↔ _
    rw [hf, List.filter_eq_self]
    simp

/-- C13 amended, at a losing tick with one enemy reaching the ship and one above it. -/
theorem loss_tick_cleanup_witness :
    ∃ (bs : List Bullet) (es : List Enemy) (sc : Int),
      collisionDetection [⟨20, 290⟩] [⟨50, 550⟩, ⟨10, 105⟩] 0 = some (bs, es, sc) ∧
      (∃ e ∈ es, e.y + ENEMY_HEIGHT ≥ 570) ∧
      [(⟨20, 290⟩ : Bullet)] = bs ∧
      [(⟨50, 550⟩ : Enemy), ⟨10, 105⟩] = es.filter (fun e => decide (e.y ≤ HEIGHT)) ∧
      ([(⟨50, 550⟩ : Enemy), ⟨10, 105⟩] = es ↔ ∀ e ∈ es, e.y ≤ HEIGHT) :=
  loss_tick_cleanup
    { state := GameState.Playing, shipX := 180, shipY := 570, score := 0,
      bullets := [⟨20, 300⟩], enemies := [⟨50, 545⟩, ⟨10, 100⟩], timerActive := true } 1 0
    { state := GameState.GameOver, shipX := 180, shipY := 570, score := 0,
      bullets := [⟨20, 290⟩], enemies := [⟨50, 550⟩, ⟨10, 105⟩], timerActive := false }
    rfl (by decide) rfl

/-! ## C14: firing -/

theorem keyPressEvent_fire (g : GameWidget) (hP : g.state = GameState.Playing) :
    keyPressEvent g Key.Key_Space
      = { g with bullets := g.bullets ++ [{ x := g.shipX + 18, y := g.shipY }] } := by
  have h18 : SHIP_WIDTH.tdiv 2 - 2 = 16 + 2 := by decide
  unfold keyPressEvent
  simp only [hP]
  simp [add_sub_assoc, h18]

theorem run_fire (n : Nat) :
    ∀ g : GameWidget, g.state = GameState.Playing →
      run g (List.replicate n (Event.key Key.Key_Space))
        = some { g with bullets := g.bullets
                   ++ List.replicate n { x := g.shipX + 18, y := g.shipY } } := by
  induction n with
  | zero => intro g _; simp [run]
  | succ n ih =>
    intro g hP
    rw [List.replicate_succ]
    simp only [run, step, Option.some_bind]
    rw [keyPressEvent_fire g hP]
    have h := ih { g with bullets := g.bullets ++ [{ x := g.shipX + 18, y := g.shipY }] } hP
    rw [h]
    simp [List.replicate_succ]

/-- C14. In a Playing state every press of Space appends exactly one bullet at
`(shipX + SHIP_WIDTH/2 - 2, shipY) = (shipX + 18, shipY)` to the end of the bullets and
leaves the earlier bullets, the enemies, the score, `shipX` and the state unchanged; `n`
presses in a row append `n` bullets; with `shipX = 180` the bullet is at `x = 198`. -/
theorem fire_appends (g : GameWidget) (n : Nat) (hP : g.state = GameState.Playing) :
    keyPressEvent g Key.Key_Space
      = { g with bullets := g.bullets
            ++ [{ x := g.shipX + SHIP_WIDTH.tdiv 2 - 2, y := g.shipY }] } ∧
    g.shipX + SHIP_WIDTH.tdiv 2 - 2 = g.shipX + 18 ∧
    run g (List.replicate n (Event.key Key.Key_Space))
      = some { g with bullets := g.bullets
                 ++ List.replicate n { x := g.shipX + 18, y := g.shipY } } ∧
    (g.shipX = 180 →
      (keyPressEvent g Key.Key_Space).bullets = g.bullets ++ [{ x := 198, y := g.shipY }]) := by
  have h18 : g.shipX + SHIP_WIDTH.tdiv 2 - 2 = g.shipX + 18 := by
    have : SHIP_WIDTH.tdiv 2 = 20 := by decide
    omega
  refine ⟨?_, h18, run_fire n g hP, ?_⟩
  · rw [h18]; exact keyPressEvent_fire g hP
  · intro hx
    rw [keyPressEvent_fire g hP, hx]
    rfl

/-- C14 at the state right after a start: three presses of Space give three bullets at
(198, 570). -/
theorem fire_appends_witness :
    run (keyPressEvent initial Key.Key_Space) (List.replicate 3 (Event.key Key.Key_Space))
      = some { state := GameState.Playing, shipX := 180, shipY := 570, score := 0,
               bullets := [⟨198, 570⟩, ⟨198, 570⟩, ⟨198, 570⟩], enemies := [],
               timerActive := true } :=
  (fire_appends (keyPressEvent initial Key.Key_Space) 3 rfl).2.2.1

/-! ## C15: moving right from the start position -/

theorem keyPressEvent_right_shipX (g : GameWidget) (hP : g.state = GameState.Playing) :
    (keyPressEvent g Key.Key_Right).shipX
      = if g.shipX + SHIP_WIDTH < WIDTH then g.shipX + 10 else g.shipX := by
  unfold keyPressEvent
  by_cases hx : g.shipX + SHIP_WIDTH < WIDTH <;> simp [hP, hx]

theorem shipX_after_rights :
    ∀ (evs : List Event) (g : GameWidget), ShipOnGrid g → playingRightRun g evs = true →
      ∃ g1 : GameWidget, run g evs = some g1 ∧
        g1.shipX = min 360 (g.shipX + 10 * (rightPresses evs : Int)) := by
  intro evs
  induction evs with
  | nil =>
    intro g hg _
    obtain ⟨_, h1, _⟩ := hg
    exact ⟨g, rfl, by simp [rightPresses]; omega⟩
  | cons ev evs ih =>
    intro g hg hrun
    simp only [playingRightRun, Bool.and_eq_true, decide_eq_true_eq] at hrun
    obtain ⟨⟨hP, hev⟩, hrest⟩ := hrun
    cases hstep : step g ev with
    | none => simp [hstep] at hrest
    | some g1 =>
      simp only [hstep] at hrest
      have hgrid : ShipOnGrid g1 := by
        cases ev with
        | key k =>
          simp only [step, Option.some.injEq] at hstep
          exact hstep ▸ shipOnGrid_key g k hg
        | tick d r => exact shipOnGrid_tick g d r g1 hg hstep
      obtain ⟨g2, hr, hx⟩ := ih g1 hgrid hrest
      refine ⟨g2, by simp [run, hstep, hr], ?_⟩
      rw [hx]
      obtain ⟨h0, h1, _⟩ := hg
      cases ev with
      | tick d r =>
        have hs := (gameLoop_ship g g1 d r hstep).1
        have hc : rightPresses (Event.tick d r :: evs) = rightPresses evs := by
          simp [rightPresses, isRightPress]
        rw [hs, hc]
      | key k =>
        cases k <;> simp [isRightPress, isTick] at hev
        simp only [step, Option.some.injEq] at hstep
        have hs : g1.shipX = if g.shipX + SHIP_WIDTH < WIDTH then g.shipX + 10 else g.shipX := by
          rw [← hstep]; exact keyPressEvent_right_shipX g hP
        have hc : rightPresses (Event.key Key.Key_Right :: evs) = rightPresses evs + 1 := by
          simp [rightPresses, isRightPress]
        rw [hs, hc]
        simp only [SHIP_WIDTH, WIDTH]
        push_cast
        split_ifs <;> omega

/-- C15. From a Playing state with `shipX = 180` (the state right after a start), any
sequence of presses of the right key and ticks (with any draws) during which the state
is Playing leads to `shipX = min 360 (180 + 10 * n)`, `n` being the number of right
presses: 210 for `n = 3`, 360 for `n = 18`, and 360 for every larger `n`. -/
theorem move_right_scenario (g0 : GameWidget) (evs : List Event)
    (hx : g0.shipX = 180) (hrun : playingRightRun g0 evs = true) :
    ∃ g1 : GameWidget, run g0 evs = some g1 ∧
      g1.shipX = min (WIDTH - SHIP_WIDTH) (180 + 10 * (rightPresses evs : Int)) ∧
      (rightPresses evs = 3 → g1.shipX = 210) ∧
      (18 ≤ rightPresses evs → g1.shipX = 360) := by
  have hg : ShipOnGrid g0 := by
    unfold ShipOnGrid
    rw [hx]
    decide
  obtain ⟨g1, hr, h⟩ := shipX_after_rights evs g0 hg hrun
  rw [hx] at h
  refine ⟨g1, hr, ?_, ?_, ?_⟩
  · rw [h]; rfl
  · intro hn
    rw [h, hn]
    decide
  · intro hn
    rw [h]
    omega

/-- C15 at the state right after a start: three right presses with a spawning tick in
between lead to `shipX = 210`. -/
theorem move_right_scenario_witness :
    run (keyPressEvent initial Key.Key_Space)
        [Event.key Key.Key_Right, Event.tick 0 7, Event.key Key.Key_Right,
         Event.key Key.Key_Right]
      = some { state := GameState.Playing, shipX := 210, shipY := 570, score := 0,
               bullets := [], enemies := [⟨7, 5⟩], timerActive := true } ∧
    ∃ g1 : GameWidget,
      run (keyPressEvent initial Key.Key_Space)
        [Event.key Key.Key_Right, Event.tick 0 7, Event.key Key.Key_Right,
         Event.key Key.Key_Right] = some g1 ∧
      g1.shipX = 210 :=
  ⟨by decide,
   let ⟨g1, h1, _, h3, _⟩ := move_right_scenario (keyPressEvent initial Key.Key_Space)
     [Event.key Key.Key_Right, Event.tick 0 7, Event.key Key.Key_Right,
      Event.key Key.Key_Right] (by decide) (by decide)
   ⟨g1, h1, h3 (by decide)⟩⟩

/-! ## C16: a fired bullet over two ticks -/

theorem mem_enemiesBeforeCollision (g : GameWidget) (d r : Int) (e : Enemy)
    (h : e ∈ enemiesBeforeCollision g d r) :
    (∃ e0 ∈ g.enemies, e = { x := e0.x, y := e0.y + 5 }) ∨
    (d.tmod 20 = 0 ∧ e = { x := r.tmod (WIDTH - ENEMY_WIDTH), y := 5 }) := by
  unfold enemiesBeforeCollision moveEnemies spawnEnemy at h
  by_cases hd : d.tmod 20 = 0
  · simp only [hd, if_true, List.map_append, List.mem_append, List.mem_map, List.map_cons,
      List.map_nil, List.mem_singleton] at h
    rcases h with ⟨e0, h0, rfl⟩ | h
    · exact Or.inl ⟨e0, h0, rfl⟩
    · exact Or.inr ⟨hd, by simpa using h⟩
  · simp only [hd, if_false, List.mem_map] at h
    obtain ⟨e0, h0, rfl⟩ := h
    exact Or.inl ⟨e0, h0, rfl⟩

theorem gameLoop_no_overlap (g : GameWidget) (d r : Int) (hP : g.state = GameState.Playing)
    (h : ∀ b ∈ bulletsBeforeCollision g, ∀ e ∈ enemiesBeforeCollision g d r,
      overlaps b e = false) :
    gameLoop g d r = some
      { g with
        state := if enemyReachedShip g.shipY (enemiesBeforeCollision g d r)
                 then GameState.GameOver else GameState.Playing
        timerActive := if enemyReachedShip g.shipY (enemiesBeforeCollision g d r) then false
                       else g.timerActive
        bullets := bulletsBeforeCollision g
        enemies := cleanUpEnemies (enemiesBeforeCollision g d r)
        score := g.score } := by
  have hc : collided g d r
      = (bulletsBeforeCollision g, enemiesBeforeCollision g d r, g.score) :=
    referenceCollision_no_overlap _ _ _ h
  rw [gameLoop_playing g d r hP, hc]

theorem overlaps_false_of_below (b : Bullet) (e : Enemy) (h : e.y + 20 ≤ b.y) :
    overlaps b e = false := by
  cases ho : overlaps b e with
  | false => rfl
  | true =>
    have := (overlaps_iff b e).1 ho
    omega

/-- A tick on a single bullet that stays below every enemy: the bullet moves up by 10,
nothing collides and the game goes on. -/
theorem tick_bullet_below (g : GameWidget) (d r bx yb ymax : Int)
    (hP : g.state = GameState.Playing) (hy : g.shipY = 570)
    (hb : g.bullets = [{ x := bx, y := yb }])
    (he : ∀ e ∈ g.enemies, e.y ≤ ymax) (h0 : 0 ≤ ymax) (h1 : ymax + 25 ≤ yb - 10)
    (h2 : ymax + 25 < 570) :
    ∃ g1 : GameWidget, gameLoop g d r = some g1 ∧ g1.state = GameState.Playing ∧
      g1.shipY = 570 ∧ g1.score = g.score ∧ g1.bullets = [{ x := bx, y := yb - 10 }] ∧
      ∀ e ∈ g1.enemies, e.y ≤ ymax + 5 := by
  have hbs : bulletsBeforeCollision g = [{ x := bx, y := yb - 10 }] := by
    have hn : ¬ (yb - 10 < 0) := by omega
    simp [bulletsBeforeCollision, moveBullets, eraseOffscreenBullets, hb, hn]
  have hes : ∀ e ∈ enemiesBeforeCollision g d r, e.y ≤ ymax + 5 := by
    intro e hmem
    rcases mem_enemiesBeforeCollision g d r e hmem with ⟨e0, h0m, rfl⟩ | ⟨_, rfl⟩
    · have := he e0 h0m
      show e0.y + 5 ≤ ymax + 5
      omega
    · show (5 : Int) ≤ ymax + 5
      omega
  have hno : ∀ b ∈ bulletsBeforeCollision g, ∀ e ∈ enemiesBeforeCollision g d r,
      overlaps b e = false := by
    intro b hbm e hem
    rw [hbs, List.mem_singleton] at hbm
    subst hbm
    apply overlaps_false_of_below
    have := hes e hem
    show e.y + 20 ≤ yb - 10
    omega
  have hnr : enemyReachedShip g.shipY (enemiesBeforeCollision g d r) = false := by
    cases hr : enemyReachedShip g.shipY (enemiesBeforeCollision g d r) with
    | false => rfl
    | true =>
      obtain ⟨e, hem, hge⟩ := (enemyReachedShip_iff _ _).1 hr
      have := hes e hem
      rw [hy] at hge
      simp only [ENEMY_HEIGHT] at hge
      omega
  refine ⟨_, gameLoop_no_overlap g d r hP hno, ?_, hy, rfl, hbs, ?_⟩
  · simp [hnr]
  · intro e hem
    exact hes e (mem_cleanUpEnemies _ e hem).1

/-- C16. From a Playing state with `shipX = 180`, `shipY = 570`, score 0, no bullets and
no enemies (the state right after a start), a press of Space followed by two ticks with
any draws leaves exactly the bullet (198, 550), the score 0 and the state Playing. -/
theorem fired_bullet_scenario (g0 : GameWidget) (d1 r1 d2 r2 : Int)
    (hP : g0.state = GameState.Playing) (hx : g0.shipX = 180) (hy : g0.shipY = 570)
    (hs : g0.score = 0) (hb : g0.bullets = []) (he : g0.enemies = []) :
    ∃ g2 : GameWidget,
      run g0 [Event.key Key.Key_Space, Event.tick d1 r1, Event.tick d2 r2] = some g2 ∧
      g2.bullets = [{ x := 198, y := 570 - 20 }] ∧ g2.bullets = [{ x := 198, y := 550 }] ∧
      g2.score = 0 ∧ g2.state = GameState.Playing := by
  have hf := keyPressEvent_fire g0 hP
  rw [hb, hx, hy] at hf
  obtain ⟨g1, ht1, hP1, hy1, hs1, hb1, he1⟩ :=
    tick_bullet_below (keyPressEvent g0 Key.Key_Space) d1 r1 198 570 0
      (by rw [hf]; exact hP) (by rw [hf]) (by rw [hf]; rfl)
      (by rw [hf]; intro e hem; simp [he] at hem) (by decide) (by decide) (by decide)
  obtain ⟨g2, ht2, hP2, _, hs2, hb2, _⟩ :=
    tick_bullet_below g1 d2 r2 198 560 5 hP1 hy1 hb1 he1 (by decide) (by decide) (by decide)
  refine ⟨g2, by simp [run, step, ht1, ht2], hb2, hb2, ?_, hP2⟩
  rw [hs2, hs1, hf]
  exact hs

/-- C16 at the state right after a start, with two spawning ticks. -/
theorem fired_bullet_scenario_witness :
    run (keyPressEvent initial Key.Key_Space)
        [Event.key Key.Key_Space, Event.tick 0 198, Event.tick 20 190]
      = some { state := GameState.Playing, shipX := 180, shipY := 570, score := 0,
               bullets := [⟨198, 550⟩], enemies := [⟨198, 10⟩, ⟨190, 5⟩],
               timerActive := true } ∧
    ∃ g2 : GameWidget,
      run (keyPressEvent initial Key.Key_Space)
        [Event.key Key.Key_Space, Event.tick 0 198, Event.tick 20 190] = some g2 ∧
      g2.bullets = [{ x := 198, y := 570 - 20 }] ∧ g2.bullets = [{ x := 198, y := 550 }] ∧
      g2.score = 0 ∧ g2.state = GameState.Playing :=
  ⟨by decide,
   fired_bullet_scenario (keyPressEvent initial Key.Key_Space) 0 198 20 190
     rfl (by decide) (by decide) rfl rfl rfl⟩

/-! ## C17: the collision scenario through a tick -/

/-- C17 as stated fails: when the tick begins with the enemy at (100,100) and the bullet
at (110,105), the advance steps move them to (100,105) and (110,95) before the test;
these touch without overlapping, both stay and the score is unchanged.  And when the hit
is registered, the score is not `s + 10` for every `s`: from 2147483640 it becomes
-2147483646. -/
theorem collision_tick_counterexample :
    gameLoop { state := GameState.Playing, shipX := 180, shipY := 570, score := 0,
               bullets := [⟨110, 105⟩], enemies := [⟨100, 100⟩], timerActive := true } 1 0
      = some { state := GameState.Playing, shipX := 180, shipY := 570, score := 0,
               bullets := [⟨110, 95⟩], enemies := [⟨100, 105⟩], timerActive := true } ∧
    overlaps ⟨110, 95⟩ ⟨100, 105⟩ = false ∧
    gameLoop { state := GameState.Playing, shipX := 180, shipY := 570, score := 2147483640,
               bullets := [⟨110, 115⟩], enemies := [⟨100, 95⟩], timerActive := true } 1 0
      = some { state := GameState.Playing, shipX := 180, shipY := 570,
               score := -2147483646, bullets := [], enemies := [],
               timerActive := true } := by
  decide

/-- C17, amended. For a Playing state with `shipY = 570` and a tick whose first draw
spawns nothing: if the only enemy and the only bullet stand at (100,100) and (110,105)
when the collision block tests them, that is at (100,95) and (110,115) when the tick
begins, the collision is registered: no bullet and no enemy remain and `score += 10` is
done, so the score is `s + 10` whenever `s + 10 <= INT_MAX`.  If they stand at (100,100)
and (110,105) when the tick begins, they are tested at (100,105) and (110,95) and both
stay, with the score unchanged. -/
theorem collision_tick_scenario (g : GameWidget) (d r : Int)
    (hP : g.state = GameState.Playing) (hy : g.shipY = 570) (hd : d.tmod 20 ≠ 0) :
    (g.bullets = [⟨110, 115⟩] → g.enemies = [⟨100, 95⟩] →
      bulletsBeforeCollision g = [⟨110, 105⟩] ∧
      enemiesBeforeCollision g d r = [⟨100, 100⟩] ∧
      gameLoop g d r
        = some { g with bullets := [], enemies := [], score := addScore g.score } ∧
      (INT_MIN ≤ g.score → g.score + 10 ≤ INT_MAX →
        gameLoop g d r
          = some { g with bullets := [], enemies := [], score := g.score + 10 })) ∧
    (g.bullets = [⟨110, 105⟩] → g.enemies = [⟨100, 100⟩] →
      bulletsBeforeCollision g = [⟨110, 95⟩] ∧
      enemiesBeforeCollision g d r = [⟨100, 105⟩] ∧
      gameLoop g d r = some { g with bullets := [⟨110, 95⟩], enemies := [⟨100, 105⟩] }) := by
  obtain ⟨st, x, y, sc, bs, es, t⟩ := g
  simp only at hP hy
  subst hP hy
  constructor
  · intro hb he
    simp only at hb he
    subst hb he
    have hgl :
        gameLoop { state := GameState.Playing, shipX := x, shipY := 570, score := sc,
                   bullets := [⟨110, 115⟩], enemies := [⟨100, 95⟩], timerActive := t } d r
          = some { state := GameState.Playing, shipX := x, shipY := 570,
                   score := addScore sc, bullets := [], enemies := [],
                   timerActive := t } := by
      simp [gameLoop, bulletsBeforeCollision,
        enemiesBeforeCollision, moveBullets, eraseOffscreenBullets, spawnEnemy, moveEnemies,
        collisionDetection, outerLoop, innerLoop, vecAt, vecRemove, overlaps,
        enemyReachedShip, cleanUpEnemies, hd, WIDTH, HEIGHT, SHIP_WIDTH, ENEMY_WIDTH,
        ENEMY_HEIGHT, BULLET_WIDTH, BULLET_HEIGHT]
    refine ⟨?_, ?_, hgl, ?_⟩
    · simp [bulletsBeforeCollision, moveBullets, eraseOffscreenBullets]
    · simp [enemiesBeforeCollision, spawnEnemy, moveEnemies, hd]
    · intro h0 h1
      have h0s : INT_MIN ≤ sc := h0
      have h1s : sc + 10 ≤ INT_MAX := h1
      have hw : addScore sc = sc + 10 := by
        unfold addScore
        exact wrapInt_of_range _ (by unfold INT_MIN at *; omega) h1s
      rw [hgl, hw]
  · intro hb he
    simp only at hb he
    subst hb he
    simp [gameLoop, bulletsBeforeCollision,
      enemiesBeforeCollision, moveBullets, eraseOffscreenBullets, spawnEnemy, moveEnemies,
      collisionDetection, outerLoop, innerLoop, vecAt, vecRemove, overlaps,
      enemyReachedShip, cleanUpEnemies, hd, WIDTH, HEIGHT, SHIP_WIDTH, ENEMY_WIDTH,
      ENEMY_HEIGHT, BULLET_WIDTH, BULLET_HEIGHT]

/-- C17 amended, at a Playing state with score 30 whose bullet and enemy are tested at
(110,105) and (100,100). -/
theorem collision_tick_scenario_witness :
    gameLoop { state := GameState.Playing, shipX := 180, shipY := 570, score := 30,
               bullets := [⟨110, 115⟩], enemies := [⟨100, 95⟩], timerActive := true } 1 0
      = some { state := GameState.Playing, shipX := 180, shipY := 570, score := 40,
               bullets := [], enemies := [], timerActive := true } :=
  ((collision_tick_scenario
      { state := GameState.Playing, shipX := 180, shipY := 570, score := 30,
        bullets := [⟨110, 115⟩], enemies := [⟨100, 95⟩], timerActive := true } 1 0
      rfl rfl (by decide)).1 rfl rfl).2.2.2 (by decide) (by decide)

/-! ## C18: reachable enemies stay in the field -/

theorem run_invariant_of (P : GameWidget → Prop) (ok : Event → Bool)
    (hstep : ∀ g ev g1, ok ev = true → P g → step g ev = some g1 → P g1) :
    ∀ (evs : List Event) (g g1 : GameWidget), evs.all ok = true → P g →
      run g evs = some g1 → P g1 := by
  intro evs
  induction evs with
  | nil =>
    intro g g1 _ hg h
    simp [run] at h
    exact h ▸ hg
  | cons ev evs ih =>
    intro g g1 hok hg h
    simp only [List.all_cons, Bool.and_eq_true] at hok
    simp only [run] at h
    cases hs : step g ev with
    | none => simp [hs] at h
    | some g2 =>
      simp [hs] at h
      exact ih g2 g1 hok.2 (hstep g ev g2 hok.1 hg hs) h

theorem keyPressEvent_cases (g : GameWidget) (k : Key) :
    keyPressEvent g k = startGame g ∨
    ((keyPressEvent g k).state = g.state ∧ (keyPressEvent g k).enemies = g.enemies ∧
      (keyPressEvent g k).shipY = g.shipY) := by
  unfold keyPressEvent
  split_ifs
  · exact Or.inl rfl
  · exact Or.inl rfl
  all_goals exact Or.inr ⟨rfl, rfl, rfl⟩

theorem enemiesInField_key (g : GameWidget) (k : Key) (h : EnemiesInField g) :
    EnemiesInField (keyPressEvent g k) := by
  obtain ⟨h1, h2, h3, h4⟩ := h
  rcases keyPressEvent_cases g k with hk | ⟨hs, he, hy⟩
  · rw [hk]
    refine ⟨h1, ?_, ?_, ?_⟩
    · intro e he; simp [startGame] at he
    · intro _ e he; simp [startGame] at he
    · intro hc; simp [startGame] at hc
  · unfold EnemiesInField
    rw [hs, he, hy]
    exact ⟨h1, h2, h3, h4⟩

theorem inField_before_collision (g : GameWidget) (d r : Int) (hr : 0 ≤ r)
    (h2 : ∀ e ∈ g.enemies, InField e) (h3 : ∀ e ∈ g.enemies, e.y ≤ 545) :
    ∀ e ∈ enemiesBeforeCollision g d r, InField e := by
  intro e hmem
  rcases mem_enemiesBeforeCollision g d r e hmem with ⟨e0, h0, rfl⟩ | ⟨_, rfl⟩
  · obtain ⟨a1, a2, a3, a4, _⟩ := h2 e0 h0
    have a5 := h3 e0 h0
    refine ⟨a1, a2, ?_, ?_, ?_⟩ <;> simp only [] <;> omega
  · have hx : r.tmod (WIDTH - ENEMY_WIDTH) = r % 370 := Int.tmod_eq_emod hr (by decide)
    refine ⟨?_, ?_, ?_, ?_, ?_⟩ <;> simp only [hx] <;> omega

theorem enemiesInField_tick (g : GameWidget) (d r : Int) (g1 : GameWidget) (hr : 0 ≤ r)
    (h : EnemiesInField g) (ht : gameLoop g d r = some g1) : EnemiesInField g1 := by
  by_cases hP : g.state = GameState.Playing
  · obtain ⟨h1, h2, h3, _⟩ := h
    have hin : ∀ e ∈ (collided g d r).2.1, InField e := fun e he =>
      inField_before_collision g d r hr h2 (h3 hP) e
        ((referenceCollision_enemies_sublist _ _ _).subset he)
    rw [gameLoop_playing g d r hP] at ht
    injection ht with ht
    subst ht
    refine ⟨h1, ?_, ?_, ?_⟩
    · intro e he
      exact hin e (mem_cleanUpEnemies _ e he).1
    · intro hs e he
      have hmem := (mem_cleanUpEnemies _ e he).1
      have hno : enemyReachedShip g.shipY (collided g d r).2.1 = false := by
        cases hc : enemyReachedShip g.shipY (collided g d r).2.1 with
        | false => rfl
        | true => simp [hc] at hs
      obtain ⟨_, _, a3, _, _⟩ := hin e hmem
      by_contra hgt
      have hreach : enemyReachedShip g.shipY (collided g d r).2.1 = true :=
        (enemyReachedShip_iff _ _).2 ⟨e, hmem, by
          rw [h1]
          simp only [ENEMY_HEIGHT]
          show (570 : Int) ≤ e.y + 20
          omega⟩
      rw [hno] at hreach
      exact Bool.noConfusion hreach
    · intro hs
      have hyes : enemyReachedShip g.shipY (collided g d r).2.1 = true := by
        cases hc : enemyReachedShip g.shipY (collided g d r).2.1 with
        | true => rfl
        | false => simp [hc] at hs
      obtain ⟨e, hmem, hge⟩ := (enemyReachedShip_iff _ _).1 hyes
      obtain ⟨_, _, _, _, a5⟩ := hin e hmem
      refine ⟨e, ?_, hge⟩
      show e ∈ cleanUpEnemies (collided g d r).2.1
      unfold cleanUpEnemies
      rw [List.mem_filter]
      refine ⟨hmem, ?_⟩
      have : ¬ e.y > HEIGHT := by simp only [HEIGHT]; omega
      simp [this]
  · rw [gameLoop_not_playing g d r hP] at ht
    injection ht with ht
    exact ht ▸ h

theorem enemiesInField_of_reachable (g : GameWidget) (h : ReachableNonneg g) :
    EnemiesInField g := by
  obtain ⟨evs, hok, hrun⟩ := h
  refine run_invariant_of EnemiesInField nonnegDraws ?_ evs initial g hok ?_ hrun
  · intro g0 ev g1 hev hg hs
    cases ev with
    | key k =>
      simp only [step, Option.some.injEq] at hs
      exact hs ▸ enemiesInField_key g0 k hg
    | tick d r =>
      simp only [nonnegDraws, Bool.and_eq_true, decide_eq_true_eq] at hev
      exact enemiesInField_tick g0 d r g1 hev.2 hg hs
  · refine ⟨by decide, ?_, ?_, ?_⟩
    · intro e he; simp [initial] at he
    · intro _ e he; simp [initial] at he
    · intro hc; simp [initial] at hc

/-- C18. In every state reachable from the constructor's state by key presses and ticks
with non-negative draws, every enemy has `0 <= x <= 369` and `y` a multiple of 5 with
`5 <= y <= 550`; so in a tick of such a state the cleanup removes no enemy, and a
reachable GameOver state still holds an enemy with `y + 20 >= shipY`. -/
theorem enemies_stay_in_field (g : GameWidget) (h : ReachableNonneg g) :
    (∀ e ∈ g.enemies, 0 ≤ e.x ∧ e.x ≤ 369 ∧ e.y % 5 = 0 ∧ 5 ≤ e.y ∧ e.y ≤ 550) ∧
    (∀ d r : Int, 0 ≤ d → 0 ≤ r →
      ∃ (g1 : GameWidget) (bs : List Bullet) (es : List Enemy) (sc : Int),
        gameLoop g d r = some g1 ∧
        (g.state = GameState.Playing →
          collisionDetection (bulletsBeforeCollision g) (enemiesBeforeCollision g d r)
            g.score = some (bs, es, sc) ∧
          cleanUpEnemies es = es ∧ g1.enemies = es) ∧
        (g.state ≠ GameState.Playing → g1 = g)) ∧
    (g.state = GameState.GameOver → ∃ e ∈ g.enemies, e.y + 20 ≥ g.shipY) := by
  obtain ⟨h1, h2, h3, h4⟩ := enemiesInField_of_reachable g h
  refine ⟨h2, ?_, h4⟩
  intro d r _ hr
  by_cases hP : g.state = GameState.Playing
  · refine ⟨_, (collided g d r).1, (collided g d r).2.1, (collided g d r).2.2,
      gameLoop_playing g d r hP, ?_, fun hn => absurd hP hn⟩
    intro _
    have hkeep : cleanUpEnemies (collided g d r).2.1 = (collided g d r).2.1 := by
      unfold cleanUpEnemies
      rw [List.filter_eq_self]
      intro e he
      obtain ⟨_, _, _, _, a5⟩ := inField_before_collision g d r hr h2 (h3 hP) e
        ((referenceCollision_enemies_sublist _ _ _).subset he)
      have : ¬ e.y > HEIGHT := by simp only [HEIGHT]; omega
      simp [this]
    exact ⟨collisionDetection_tick g d r, hkeep, hkeep⟩
  · exact ⟨g, [], [], 0, gameLoop_not_playing g d r hP, fun hp => absurd hp hP, fun _ => rfl⟩

/-- C18 at the GameOver state reached by a start, a spawning tick and 109 further
ticks. -/
theorem enemies_stay_in_field_witness :
    run initial (Event.key Key.Key_Space :: Event.tick 0 739
        :: List.replicate 109 (Event.tick 1 0))
      = some { state := GameState.GameOver, shipX := 180, shipY := 570, score := 0,
               bullets := [], enemies := [⟨369, 550⟩], timerActive := false } ∧
    ∀ e ∈ [(⟨369, 550⟩ : Enemy)], 0 ≤ e.x ∧ e.x ≤ 369 ∧ e.y % 5 = 0 ∧ 5 ≤ e.y ∧ e.y ≤ 550 :=
  ⟨by decide,
   (enemies_stay_in_field
      { state := GameState.GameOver, shipX := 180, shipY := 570, score := 0,
        bullets := [], enemies := [⟨369, 550⟩], timerActive := false }
      ⟨Event.key Key.Key_Space :: Event.tick 0 739 :: List.replicate 109 (Event.tick 1 0),
        by decide, by decide⟩).1⟩

/-! ## C19: reachable enemies are ordered by age -/

theorem byAge_before_collision (g : GameWidget) (d r : Int) (h : EnemiesByAge g) :
    ByAge (enemiesBeforeCollision g d r) ∧ ∀ e ∈ enemiesBeforeCollision g d r, 5 ≤ e.y := by
  obtain ⟨h1, h2⟩ := h
  constructor
  · unfold enemiesBeforeCollision moveEnemies ByAge
    rw [List.pairwise_map]
    have hmove : List.Pairwise (fun a b : Enemy => a.y + 5 > b.y + 5) g.enemies :=
      h1.imp (fun hab => by omega)
    unfold spawnEnemy
    split_ifs
    · rw [List.pairwise_append]
      refine ⟨hmove, List.pairwise_singleton _ _, ?_⟩
      intro a ha b hb
      rw [List.mem_singleton] at hb
      subst hb
      have := h2 a ha
      show a.y + 5 > 0 + 5
      omega
    · exact hmove
  · intro e hmem
    rcases mem_enemiesBeforeCollision g d r e hmem with ⟨e0, h0, rfl⟩ | ⟨_, rfl⟩
    · have := h2 e0 h0
      show 5 ≤ e0.y + 5
      omega
    · exact le_refl _

theorem enemiesByAge_key (g : GameWidget) (k : Key) (h : EnemiesByAge g) :
    EnemiesByAge (keyPressEvent g k) := by
  rcases keyPressEvent_cases g k with hk | ⟨_, he, _⟩
  · rw [hk]
    exact ⟨List.Pairwise.nil, by intro e he; simp [startGame] at he⟩
  · unfold EnemiesByAge
    rw [he]
    exact h

theorem enemiesByAge_tick (g : GameWidget) (d r : Int) (g1 : GameWidget)
    (h : EnemiesByAge g) (ht : gameLoop g d r = some g1) : EnemiesByAge g1 := by
  by_cases hP : g.state = GameState.Playing
  · obtain ⟨hb1, hb2⟩ := byAge_before_collision g d r h
    have hsub : (cleanUpEnemies (collided g d r).2.1).Sublist (enemiesBeforeCollision g d r) :=
      (List.filter_sublist _).trans (referenceCollision_enemies_sublist _ _ _)
    rw [gameLoop_playing g d r hP] at ht
    injection ht with ht
    subst ht
    exact ⟨List.Pairwise.sublist hsub hb1, fun e he => hb2 e (hsub.subset he)⟩
  · rw [gameLoop_not_playing g d r hP] at ht
    injection ht with ht
    exact ht ▸ h

theorem firstOverlapping_lowest (b : Bullet) (es : List Enemy) (hes : ByAge es) (j : Nat)
    (ej : Enemy) (hfo : firstOverlapping b es = some j) (hj : es[j]? = some ej) :
    overlaps b ej = true ∧
    ∀ (k : Nat) (e : Enemy), es[k]? = some e → overlaps b e = true →
      e.y ≤ ej.y ∧ (e.y = ej.y → k = j) := by
  obtain ⟨⟨e1, he1, ho1⟩, hlow⟩ := (firstOverlapping_some_iff b es j).1 hfo
  rw [hj] at he1
  injection he1 with he1
  subst he1
  refine ⟨ho1, ?_⟩
  intro k e hk ho
  have hjk : j ≤ k := by
    by_contra hlt
    have := hlow k (by omega) e hk
    rw [ho] at this
    exact Bool.noConfusion this
  rcases Nat.eq_or_lt_of_le hjk with heq | hlt
  · subst heq
    rw [hj] at hk
    injection hk with hk
    subst hk
    exact ⟨le_refl _, fun _ => rfl⟩
  · obtain ⟨hj1, hj2⟩ := List.getElem?_eq_some.1 hj
    obtain ⟨hk1, hk2⟩ := List.getElem?_eq_some.1 hk
    have := (List.pairwise_iff_getElem.1 hes) j k hj1 hk1 hlt
    rw [hj2, hk2] at this
    exact ⟨by omega, fun heq => by omega⟩

/-- C19. In every state reachable from the constructor's state by key presses and ticks
(with any draws) the `y` of the enemies strictly decreases along storage order, so no two
enemies share a position; the same holds for the enemies entering the collision block of
a tick and for every list left of them by removals, so the lowest-index enemy overlapping
a bullet is the overlapping enemy with the largest `y`, the one closest to the ship. -/
theorem enemies_by_age (g : GameWidget) (h : Reachable g) :
    g.enemies.Pairwise (fun a b => a.y > b.y) ∧
    g.enemies.Nodup ∧
    (∀ (d r : Int) (es : List Enemy) (b : Bullet) (j : Nat) (ej : Enemy),
      es.Sublist (enemiesBeforeCollision g d r) →
      firstOverlapping b es = some j → es[j]? = some ej →
      overlaps b ej = true ∧
      ∀ (k : Nat) (e : Enemy), es[k]? = some e → overlaps b e = true →
        e.y ≤ ej.y ∧ (e.y = ej.y → k = j)) := by
  have hinv : EnemiesByAge g :=
    reachable_invariant EnemiesByAge
      ⟨List.Pairwise.nil, by intro e he; simp [initial] at he⟩
      enemiesByAge_key enemiesByAge_tick g h
  refine ⟨hinv.1, ?_, ?_⟩
  · exact List.Pairwise.imp (fun hab heq => by rw [heq] at hab; omega) hinv.1
  · intro d r es b j ej hsub hfo hj
    exact firstOverlapping_lowest b es
      (List.Pairwise.sublist hsub (byAge_before_collision g d r hinv).1) j ej hfo hj

/-- C19 at the state reached by a start and three ticks of which the first and the last
spawn. -/
theorem enemies_by_age_witness :
    run initial [Event.key Key.Key_Space, Event.tick 0 7, Event.tick 1 0, Event.tick 20 7]
      = some { state := GameState.Playing, shipX := 180, shipY := 570, score := 0,
               bullets := [], enemies := [⟨7, 15⟩, ⟨7, 5⟩], timerActive := true } ∧
    [(⟨7, 15⟩ : Enemy), ⟨7, 5⟩].Pairwise (fun a b => a.y > b.y) :=
  ⟨by decide,
   (enemies_by_age
      { state := GameState.Playing, shipX := 180, shipY := 570, score := 0,
        bullets := [], enemies := [⟨7, 15⟩, ⟨7, 5⟩], timerActive := true }
      ⟨[Event.key Key.Key_Space, Event.tick 0 7, Event.tick 1 0, Event.tick 20 7],
        by decide⟩).1⟩

/-! ## C20: the time an unshot enemy takes to reach the ship -/

theorem enemyReachedShip_head (shipY x y : Int) (tl : List Enemy)
    (h : ∀ e ∈ tl, e.y < y) :
    enemyReachedShip shipY ({ x := x, y := y } :: tl) = decide (y + 20 ≥ shipY) := by
  by_cases hy : y + 20 ≥ shipY
  · simp [enemyReachedShip, ENEMY_HEIGHT, hy]
  · have hno : enemyReachedShip shipY tl = false := by
      cases hr : enemyReachedShip shipY tl with
      | false => rfl
      | true =>
        obtain ⟨e, hem, hge⟩ := (enemyReachedShip_iff _ _).1 hr
        have := h e hem
        simp only [ENEMY_HEIGHT] at hge
        omega
    simp [enemyReachedShip, ENEMY_HEIGHT, hy, hno]

/-- A tick without bullets on a state whose first enemy is the lowest one. -/
theorem tick_unshot (g : GameWidget) (d r x y : Int) (rest : List Enemy)
    (hP : g.state = GameState.Playing) (hy : g.shipY = 570) (hb : g.bullets = [])
    (he : g.enemies = { x := x, y := y } :: rest) (hrest : ∀ e ∈ rest, e.y < y)
    (h5 : 5 ≤ y) (h600 : y + 5 ≤ 600) :
    ∃ (g1 : GameWidget) (rest1 : List Enemy), gameLoop g d r = some g1 ∧
      g1.state = (if y + 25 ≥ 570 then GameState.GameOver else GameState.Playing) ∧
      g1.shipY = 570 ∧ g1.bullets = [] ∧
      g1.enemies = { x := x, y := y + 5 } :: rest1 ∧ ∀ e ∈ rest1, e.y < y + 5 := by
  have hbs : bulletsBeforeCollision g = [] := by
    simp [bulletsBeforeCollision, moveBullets, eraseOffscreenBullets, hb]
  have hno : ∀ b ∈ bulletsBeforeCollision g, ∀ e ∈ enemiesBeforeCollision g d r,
      overlaps b e = false := by
    intro b hbm
    rw [hbs] at hbm
    exact absurd hbm (List.not_mem_nil b)
  have hes : enemiesBeforeCollision g d r
      = { x := x, y := y + 5 } :: moveEnemies (spawnEnemy rest d r) := by
    unfold enemiesBeforeCollision spawnEnemy moveEnemies
    rw [he]
    split_ifs <;> simp
  have htl : ∀ e ∈ moveEnemies (spawnEnemy rest d r), e.y < y + 5 := by
    intro e hmem
    unfold moveEnemies spawnEnemy at hmem
    split_ifs at hmem
    · simp only [List.map_append, List.mem_append, List.mem_map, List.map_cons,
        List.map_nil, List.mem_singleton] at hmem
      rcases hmem with ⟨e0, h0, rfl⟩ | rfl
      · have := hrest e0 h0
        show e0.y + 5 < y + 5
        omega
      · show (0 : Int) + 5 < y + 5
        omega
    · simp only [List.mem_map] at hmem
      obtain ⟨e0, h0, rfl⟩ := hmem
      have := hrest e0 h0
      show e0.y + 5 < y + 5
      omega
  have hclean : cleanUpEnemies (enemiesBeforeCollision g d r)
      = { x := x, y := y + 5 } :: cleanUpEnemies (moveEnemies (spawnEnemy rest d r)) := by
    rw [hes]
    have : ¬ y + 5 > HEIGHT := by simp only [HEIGHT]; omega
    simp [cleanUpEnemies, this]
  have hreach : enemyReachedShip g.shipY (enemiesBeforeCollision g d r)
      = decide (y + 25 ≥ 570) := by
    rw [hes, hy, enemyReachedShip_head 570 x (y + 5) _ htl]
    congr 1
    apply propext
    constructor <;> intro h <;> omega
  refine ⟨_, cleanUpEnemies (moveEnemies (spawnEnemy rest d r)),
    gameLoop_no_overlap g d r hP hno, ?_, hy, hbs, hclean, ?_⟩
  · show (if enemyReachedShip g.shipY (enemiesBeforeCollision g d r) = true
        then GameState.GameOver else GameState.Playing) = _
    rw [hreach]
    simp
  · intro e hem
    exact htl e (mem_cleanUpEnemies _ e hem).1

/-- The first tick after a start, when it spawns. -/
theorem tick_first_spawn (g : GameWidget) (d r : Int)
    (hP : g.state = GameState.Playing) (hy : g.shipY = 570) (hb : g.bullets = [])
    (he : g.enemies = []) (hd : d.tmod 20 = 0) :
    ∃ g1 : GameWidget, gameLoop g d r = some g1 ∧ g1.state = GameState.Playing ∧
      g1.shipY = 570 ∧ g1.bullets = [] ∧
      g1.enemies = [{ x := r.tmod (WIDTH - ENEMY_WIDTH), y := 5 }] := by
  have hbs : bulletsBeforeCollision g = [] := by
    simp [bulletsBeforeCollision, moveBullets, eraseOffscreenBullets, hb]
  have hno : ∀ b ∈ bulletsBeforeCollision g, ∀ e ∈ enemiesBeforeCollision g d r,
      overlaps b e = false := by
    intro b hbm
    rw [hbs] at hbm
    exact absurd hbm (List.not_mem_nil b)
  have hes : enemiesBeforeCollision g d r
      = [{ x := r.tmod (WIDTH - ENEMY_WIDTH), y := 5 }] := by
    simp [enemiesBeforeCollision, spawnEnemy, moveEnemies, he, hd]
  refine ⟨_, gameLoop_no_overlap g d r hP hno, ?_, hy, hbs, ?_⟩
  · show (if enemyReachedShip g.shipY (enemiesBeforeCollision g d r) = true
        then GameState.GameOver else GameState.Playing) = _
    rw [hes, hy]
    simp [enemyReachedShip, ENEMY_HEIGHT]
  · show cleanUpEnemies (enemiesBeforeCollision g d r) = _
    rw [hes]
    simp [cleanUpEnemies, HEIGHT]

theorem ticks_unshot (g0 : GameWidget) (draws : Nat → Int × Int)
    (hP : g0.state = GameState.Playing) (hy : g0.shipY = 570) (hb : g0.bullets = [])
    (he : g0.enemies = []) (hd : (draws 0).1.tmod 20 = 0) :
    ∀ n : Nat, n < 109 → ∃ (gn : GameWidget) (rest : List Enemy),
      ticks g0 draws (n + 1) = some gn ∧ gn.state = GameState.Playing ∧
      gn.shipY = 570 ∧ gn.bullets = [] ∧
      gn.enemies = { x := (draws 0).2.tmod (WIDTH - ENEMY_WIDTH), y := 5 * ((n : Int) + 1) }
        :: rest ∧
      ∀ e ∈ rest, e.y < 5 * ((n : Int) + 1) := by
  intro n
  induction n with
  | zero =>
    intro _
    obtain ⟨g1, h1, h2, h3, h4, h5⟩ :=
      tick_first_spawn g0 (draws 0).1 (draws 0).2 hP hy hb he hd
    exact ⟨g1, [], by simp [ticks, h1], h2, h3, h4, by simpa using h5, by simp⟩
  | succ n ih =>
    intro hn
    obtain ⟨gn, rest, h1, h2, h3, h4, h5, h6⟩ := ih (by omega)
    obtain ⟨g1, rest1, k1, k2, k3, k4, k5, k6⟩ :=
      tick_unshot gn (draws (n + 1)).1 (draws (n + 1)).2 _ _ rest h2 h3 h4 h5 h6
        (by omega) (by omega)
    refine ⟨g1, rest1, ?_, ?_, k3, k4, ?_, ?_⟩
    · rw [ticks, h1]
      exact k1
    · rw [k2, if_neg (by omega)]
    · rw [k5]
      push_cast
      ring_nf
    · intro e hem
      have := k6 e hem
      push_cast
      omega

theorem ticks_after_loss (g0 : GameWidget) (draws : Nat → Int × Int) (n : Nat)
    (g : GameWidget) (h : ticks g0 draws n = some g) (hs : g.state = GameState.GameOver) :
    ∀ m : Nat, ticks g0 draws (n + m) = some g := by
  intro m
  induction m with
  | zero => exact h
  | succ m ih =>
    rw [← Nat.add_assoc, ticks, ih]
    exact gameLoop_not_playing g _ _ (by rw [hs]; decide)

/-- C20. From a Playing state with no bullets, no enemies and `shipY = 570` (the state
right after a start), with no key pressed and draws whose first tick spawns an enemy,
the state is Playing after each of the first 109 ticks and GameOver after the 110th,
the first enemy then standing at `y = 550` with `y + 20 = shipY`; every later tick leaves
the state as it is after the 110th. -/
theorem time_to_loss (g0 : GameWidget) (draws : Nat → Int × Int)
    (hP : g0.state = GameState.Playing) (hy : g0.shipY = 570) (hb : g0.bullets = [])
    (he : g0.enemies = []) (hd : (draws 0).1.tmod 20 = 0) :
    (∀ n : Nat, n ≤ 109 →
      ∃ gn : GameWidget, ticks g0 draws n = some gn ∧ gn.state = GameState.Playing) ∧
    ∃ (g110 : GameWidget) (x : Int) (rest : List Enemy),
      ticks g0 draws 110 = some g110 ∧ g110.state = GameState.GameOver ∧
      g110.enemies = { x := x, y := 550 } :: rest ∧ 550 + ENEMY_HEIGHT = g110.shipY ∧
      ∀ n : Nat, 110 ≤ n → ticks g0 draws n = some g110 := by
  constructor
  · intro n hn
    cases n with
    | zero => exact ⟨g0, rfl, hP⟩
    | succ n =>
      obtain ⟨gn, _, h1, h2, _⟩ := ticks_unshot g0 draws hP hy hb he hd n (by omega)
      exact ⟨gn, h1, h2⟩
  · obtain ⟨gn, rest, h1, h2, h3, h4, h5, h6⟩ :=
      ticks_unshot g0 draws hP hy hb he hd 108 (by omega)
    obtain ⟨g1, rest1, k1, k2, k3, k4, k5, k6⟩ :=
      tick_unshot gn (draws 109).1 (draws 109).2 _ _ rest h2 h3 h4 h5 h6
        (by decide) (by decide)
    have hrun : ticks g0 draws 110 = some g1 := by
      rw [ticks, h1]
      exact k1
    have hover : g1.state = GameState.GameOver := by
      rw [k2]
      decide
    refine ⟨g1, _, rest1, hrun, hover, k5, by rw [k3]; decide, ?_⟩
    intro n hn
    obtain ⟨m, rfl⟩ : ∃ m, n = 110 + m := ⟨n - 110, by omega⟩
    exact ticks_after_loss g0 draws 110 g1 hrun hover m

/-- C20 at the state right after a start with every tick spawning at `x = 7`: after 110
ticks the state is GameOver. -/
theorem time_to_loss_witness :
    ∃ (g110 : GameWidget) (x : Int) (rest : List Enemy),
      ticks (keyPressEvent initial Key.Key_Space) (fun _ => (0, 7)) 110 = some g110 ∧
      g110.state = GameState.GameOver ∧
      g110.enemies = { x := x, y := 550 } :: rest ∧ 550 + ENEMY_HEIGHT = g110.shipY ∧
      ∀ n : Nat, 110 ≤ n →
        ticks (keyPressEvent initial Key.Key_Space) (fun _ => (0, 7)) n = some g110 :=
  (time_to_loss (keyPressEvent initial Key.Key_Space) (fun _ => (0, 7))
    rfl (by decide) rfl rfl (by decide)).2

end Spaceships
